import Mathlib

/-!
Verification development for the gowitness statistics and IP-intelligence core.

The Go sources embedded here (shallowly, as executable Lean functions) are:
* `web/api/statistics.go` — apex-domain classification (`extractApexDomain`),
  the domain aggregator (`calculateDomainStatistics`), the IP aggregator
  (`calculateIPStatistics`), and the statistics handler (`StatisticsHandler`);
* `web/api/logo.go` — the per-IP intelligence fallback path of `IPInfoHandler`,
  `storeFallbackIPData` and `isValidIPAddress`;
* `cmd` naabu/shodan scanners — the three `IPPort` insertion paths
  (`parseAndSaveResults`, `createFallbackIPPortEntries`, `createIPPortEntries`).

Go strings are modelled as Lean `String` values manipulated through their
character lists; all byte-level Go operations used by this code act on ASCII
data, where byte-wise and character-wise processing coincide.
-/

namespace Gowitness

/-! ### Character and string helpers (Go `strings` operations, ASCII) -/

/-- Models Go `strings.Split(s, sep)` for a single-character separator, on
character lists.  `split "" = [""]`, `split "a." = ["a", ""]`, as in Go. -/
def splitChar (sep : Char) : List Char → List (List Char)
  | [] => [[]]
  | c :: cs =>
    let rest := splitChar sep cs
    if c = sep then [] :: rest
    else
      match rest with
      | [] => [[c]]
      | r :: rs => (c :: r) :: rs

/-- Splits a hostname into its dot-separated labels, as
`strings.Split(hostname, ".")` does in the Go sources. -/
def splitOnDot (s : String) : List String :=
  (splitChar '.' s.data).map String.mk

/-- Joins labels with `"."`, as `strings.Join(parts, ".")` does. -/
def joinDot : List String → String
  | [] => ""
  | [s] => s
  | s :: rest => s ++ "." ++ joinDot rest

/-- Byte-lexicographic order on character lists; on ASCII data this is exactly
Go's `<` on strings. -/
def charListLt : List Char → List Char → Bool
  | [], [] => false
  | [], _ :: _ => true
  | _ :: _, [] => false
  | a :: as, b :: bs =>
    if a.toNat < b.toNat then true
    else if b.toNat < a.toNat then false
    else charListLt as bs

/-- Go string `s < t` (byte-lexicographic; ASCII data). -/
def strLt (s t : String) : Bool := charListLt s.data t.data

/-- Go string `s <= t`, i.e. `!(t < s)`. -/
def strLe (s t : String) : Bool := !(strLt t s)

/-! ### Zero-padded Go timestamps (`time.Time.Format("2006-01-02 15:04:05")`) -/

/-- A wall-clock instant, the projection of Go `time.Time` used by this code
(everything is formatted to second precision, no time zone). -/
structure GoTime where
  year : Nat
  month : Nat
  day : Nat
  hour : Nat
  minute : Nat
  sec : Nat
deriving Repr, DecidableEq

/-- Two-digit zero padding, as Go's reference-layout formatting produces. -/
def pad2 (n : Nat) : String :=
  if n < 10 then "0" ++ toString n else toString n

/-- Four-digit zero padding for the year field. -/
def pad4 (n : Nat) : String :=
  if n < 10 then "000" ++ toString n
  else if n < 100 then "00" ++ toString n
  else if n < 1000 then "0" ++ toString n
  else toString n

/-- Go `t.Format("2006-01-02 15:04:05")`. -/
def GoTime.format (t : GoTime) : String :=
  pad4 t.year ++ "-" ++ pad2 t.month ++ "-" ++ pad2 t.day ++ " " ++
    pad2 t.hour ++ ":" ++ pad2 t.minute ++ ":" ++ pad2 t.sec

/-! ### Go `net/url` model

Model of the fragment of `net/url.Parse` observed by the statistics code:
scheme recognition, authority/host extraction (with percent-escape and port
validation), and the `Hostname()`/`Port()` accessors.  Query and fragment are
split off exactly as in Go; path contents only matter through escape
validation, which is what `setPath` checks. -/

/-- Result of Go `getScheme`: an explicit scheme, no scheme (rest is the whole
input), or the "missing protocol scheme" error. -/
inductive SchemeResult where
  | noScheme
  | withScheme (scheme rest : List Char)
  | schemeError
deriving Repr, DecidableEq

/-- Go `getScheme`: a scheme is `ALPHA *( ALPHA / DIGIT / "+" / "-" / "." )`
followed by `":"`; a leading `":"` is an error; any other shape means the URL
has no scheme. -/
def getSchemeCore (seen : List Char) : List Char → SchemeResult
  | [] => .noScheme
  | c :: rest =>
    if c.isAlpha then getSchemeCore (seen ++ [c]) rest
    else if c.isDigit || c = '+' || c = '-' || c = '.' then
      if seen.isEmpty then .noScheme else getSchemeCore (seen ++ [c]) rest
    else if c = ':' then
      if seen.isEmpty then .schemeError else .withScheme seen rest
    else .noScheme

/-- Go `validOptionalPort`: empty, or `":"` followed by digits only. -/
def validOptionalPort : List Char → Bool
  | [] => true
  | ':' :: rest => rest.all Char.isDigit
  | _ => false

/-- Hex digit value, as Go `unhex`. -/
def hexVal (c : Char) : Option Nat :=
  if c.isDigit then some (c.toNat - 48)
  else if 97 ≤ c.toNat && c.toNat ≤ 102 then some (c.toNat - 87)
  else if 65 ≤ c.toNat && c.toNat ≤ 70 then some (c.toNat - 55)
  else none

/-- Characters acceptable raw in the host component (Go `shouldEscape` with
`encodeHost`): unreserved, sub-delims, and `:[]<>"`; non-ASCII bytes pass. -/
def isHostChar (c : Char) : Bool :=
  c.isAlphanum || c = '-' || c = '.' || c = '_' || c = '~' ||
  c = '!' || c = '$' || c = '&' || c = '\'' || c = '(' || c = ')' ||
  c = '*' || c = '+' || c = ',' || c = ';' || c = '=' || c = ':' ||
  c = '[' || c = ']' || c = '<' || c = '>' || c = '"' || 128 ≤ c.toNat

/-- Go `unescape` with `encodeHost`: validates raw characters against
`isHostChar` and decodes `%xx` escapes, which in a host are only legal for
non-ASCII bytes or `%25`; decoded bytes are represented by their code point. -/
def unescapeHost : List Char → Option (List Char)
  | [] => some []
  | '%' :: h1 :: h2 :: rest =>
    match hexVal h1, hexVal h2 with
    | some v1, some v2 =>
      if v1 < 8 && !(h1 = '2' && h2 = '5') then none
      else
        match unescapeHost rest with
        | some tail => some (Char.ofNat (16 * v1 + v2) :: tail)
        | none => none
    | _, _ => none
  | '%' :: _ => none
  | c :: rest =>
    if isHostChar c then
      match unescapeHost rest with
      | some tail => some (c :: tail)
      | none => none
    else none

/-- Index of the last occurrence of `c`, as Go `strings.LastIndex`. -/
def lastIndexOfChar (c : Char) (cs : List Char) : Option Nat :=
  match cs.reverse.findIdx? (fun x => x == c) with
  | none => none
  | some j => some (cs.length - 1 - j)

/-- Go `parseHost` restricted to the data this code observes: bracketed IPv6
literals must close and be followed by a valid optional port (zone
identifiers are not modelled); otherwise the text after the last `":"` must
be a valid optional port; the host is then unescaped and validated. -/
def parseHost (host : List Char) : Option (List Char) :=
  match host with
  | '[' :: _ =>
    match lastIndexOfChar ']' host with
    | none => none
    | some i =>
      if validOptionalPort (host.drop (i + 1)) then unescapeHost host else none
  | _ =>
    match lastIndexOfChar ':' host with
    | none => unescapeHost host
    | some i => if validOptionalPort (host.drop i) then unescapeHost host else none

/-- Go `net/url.splitHostPort`: strip a valid numeric port after the last
`":"`, then strip enclosing brackets. -/
def splitHostPort (hostPort : List Char) : List Char × List Char :=
  let hp :=
    match lastIndexOfChar ':' hostPort with
    | some i =>
      if validOptionalPort (hostPort.drop i) then (hostPort.take i, hostPort.drop (i + 1))
      else (hostPort, [])
    | none => (hostPort, [])
  match hp.1 with
  | '[' :: rest =>
    if rest.getLast? = some ']' then (rest.dropLast, hp.2) else (hp.1, hp.2)
  | _ => hp

/-- Characters Go `validUserinfo` accepts in the userinfo component. -/
def validUserinfoChar (c : Char) : Bool :=
  c.isAlphanum || c = '-' || c = '.' || c = '_' || c = ':' || c = '~' ||
  c = '!' || c = '$' || c = '&' || c = '\'' || c = '(' || c = ')' ||
  c = '*' || c = '+' || c = ',' || c = ';' || c = '=' || c = '%' || c = '@'

/-- Escape well-formedness: every `%` is followed by two hex digits (the only
check Go `unescape` performs for the path and userinfo components). -/
def validEscapes : List Char → Bool
  | [] => true
  | '%' :: h1 :: h2 :: rest =>
    (hexVal h1).isSome && (hexVal h2).isSome && validEscapes rest
  | '%' :: _ => false
  | _ :: rest => validEscapes rest

/-- Cuts `cs` at the first occurrence of `c`, dropping the separator. -/
def cutAtChar (c : Char) (cs : List Char) : List Char × List Char :=
  (cs.takeWhile (fun x => x != c), (cs.dropWhile (fun x => x != c)).drop 1)

/-- The projection of Go `url.URL` used by the statistics code. -/
structure GoURL where
  Scheme : String
  Host : String
deriving Repr, DecidableEq

/-- Go `u.Hostname()`. -/
def GoURL.hostname (u : GoURL) : String := String.mk (splitHostPort u.Host.data).1

/-- Go `u.Port()`. -/
def GoURL.port (u : GoURL) : String := String.mk (splitHostPort u.Host.data).2

/-- Body of Go `net/url.parse` (with `viaRequest = false`) after scheme
extraction: split the query, return rootless-path URLs without a host, reject
a colon in the first path segment of scheme-less URLs, and otherwise extract
and validate the authority when the remainder begins with `"//"`. -/
def goUrlParseCore (scheme rest0 : List Char) : Option GoURL :=
  let rest := (cutAtChar '?' rest0).1
  if scheme ≠ [] ∧ rest.head? ≠ some '/' then
    some { Scheme := String.mk scheme, Host := "" }
  else if scheme = [] ∧ rest.head? ≠ some '/' ∧ ':' ∈ rest.takeWhile (fun x => x != '/') then
    none
  else
    match rest with
    | '/' :: '/' :: rest2 =>
      if scheme ≠ [] ∨ rest2.head? ≠ some '/' then
        let authority := rest2.takeWhile (fun x => x != '/')
        let path := rest2.dropWhile (fun x => x != '/')
        let hostPart :=
          match lastIndexOfChar '@' authority with
          | none => parseHost authority
          | some i =>
            if (authority.take i).all validUserinfoChar ∧ validEscapes (authority.take i) then
              parseHost (authority.drop (i + 1))
            else none
        match hostPart with
        | none => none
        | some hostChars =>
          if validEscapes path then
            some { Scheme := String.mk scheme, Host := String.mk hostChars }
          else none
      else
        if validEscapes rest then some { Scheme := String.mk scheme, Host := "" } else none
    | _ =>
      if validEscapes rest then some { Scheme := String.mk scheme, Host := "" } else none

/-- Go `net/url.Parse`: fragment split, scheme extraction (lower-cased), then
`parse`.  `none` models a parse error. -/
def goUrlParse (rawURL : String) : Option GoURL :=
  let beforeFrag := (cutAtChar '#' rawURL.data).1
  match getSchemeCore [] beforeFrag with
  | .schemeError => none
  | .withScheme s r => goUrlParseCore (s.map Char.toLower) r
  | .noScheme => goUrlParseCore [] beforeFrag

/-! ### Public-suffix model (`golang.org/x/net/publicsuffix`) -/

/-- Excerpt of the public suffix list consulted by
`publicsuffix.EffectiveTLDPlusOne`, restricted to the normal rules relevant
here (each rule is a label sequence).  For an unlisted TLD the prevailing
rule applies and the public suffix is the last label. -/
def pslRules : List (List String) :=
  [["com"], ["org"], ["net"], ["io"], ["dev"],
   ["uk"], ["co", "uk"], ["org", "uk"], ["ac", "uk"], ["gov", "uk"],
   ["au"], ["com", "au"], ["net", "au"], ["org", "au"],
   ["de"], ["fr"], ["dk"], ["nl"], ["us"], ["jp"], ["co", "jp"]]

/-- Label count of the public suffix of `labels`: the longest matching rule,
or one label when nothing matches. -/
def publicSuffixLabels (labels : List String) : Nat :=
  let n := labels.length
  let candidates := (List.range n).filterMap (fun k =>
    if labels.drop (n - (k + 1)) ∈ pslRules then some (k + 1) else none)
  candidates.foldl Nat.max 1

/-- Go `publicsuffix.EffectiveTLDPlusOne`: fails on empty labels, and when
the domain does not extend its own public suffix by at least one label;
otherwise returns the suffix plus one label. -/
def effectiveTLDPlusOne (domain : String) : Option String :=
  let labels := splitOnDot domain
  if labels.any (fun l => l.isEmpty) then none
  else
    let k := publicSuffixLabels labels
    if k + 1 ≤ labels.length then some (joinDot (labels.drop (labels.length - (k + 1))))
    else none

/-! ### `extractApexDomain` (web/api/statistics.go) -/

/-- The hostname-level core of `extractApexDomain`: public-suffix lookup with
the "last two dot-separated labels" fallback when the lookup fails, and the
hostname unchanged when it has fewer than two labels. -/
def apexFromHostname (hostname : String) : String :=
  match effectiveTLDPlusOne hostname with
  | some etld => etld
  | none =>
    let parts := splitOnDot hostname
    if 2 ≤ parts.length then joinDot (parts.drop (parts.length - 2))
    else hostname

/-- Go `extractApexDomain` (statistics.go): parse the URL, take its hostname,
and classify it; empty string on parse failure or empty hostname. -/
def extractApexDomain (inputURL : String) : String :=
  match goUrlParse inputURL with
  | none => ""
  | some parsedURL =>
    let hostname := parsedURL.hostname
    if hostname = "" then "" else apexFromHostname hostname

/-! ### Data model of the statistics response (web/api/statistics.go) -/

/-- The per-hostname entry stored inside an apex group (`subdomain` struct). -/
structure subdomain where
  Domain : String
  ResultID : Nat
  URL : String
  Protocol : String
  Port : String
deriving Repr, DecidableEq

/-- An apex-domain group (`apexDomain` struct). -/
structure apexDomain where
  Domain : String
  IsApex : Bool
  ResultID : Nat
  Subdomains : List subdomain
  Count : Nat
deriving Repr, DecidableEq

/-- Counts for the domain statistics block (`domainStatistics`). -/
structure domainStatistics where
  UniqueApexDomains : Nat
  TotalSubdomains : Nat
  TotalDomains : Nat
  ApexDomains : List apexDomain
deriving Repr, DecidableEq

/-- Per-domain entry of an IP group (`ipDomainEntry`). -/
structure ipDomainEntry where
  Domain : String
  ResultID : Nat
  URL : String
  Protocol : String
  Port : String
deriving Repr, DecidableEq

/-- An IP group (`ipEntry`). -/
structure ipEntry where
  IPAddress : String
  DomainCount : Nat
  FirstSeen : String
  LastSeen : String
  SampleDomain : String
  ResultID : Nat
  Domains : List ipDomainEntry
deriving Repr, DecidableEq

/-- The IP statistics block (`ipStatistics`). -/
structure ipStatistics where
  UniqueIPs : Nat
  TotalResults : Nat
  IPList : List ipEntry
deriving Repr, DecidableEq

/-- The projection of `models.Result` read by the aggregators
(`SELECT id, url, ip_address, probed_at`). -/
structure Result where
  ID : Nat
  URL : String
  IPAddress : String
  ProbedAt : GoTime
deriving Repr, DecidableEq

/-- Scheme-based port defaulting shared by both aggregators: an explicit URL
port wins; otherwise `http` → 80, `https` → 443, anything else → "unknown". -/
def defaultedPort (protocol port : String) : String :=
  if port = "" then
    if protocol = "http" then "80"
    else if protocol = "https" then "443"
    else "unknown"
  else port

/-! ### The Go bubble sort used by both aggregators

Both aggregators sort their map-derived slice with the same index bubble
sort (`for i; for j < len-i-1; if a[j].Count < a[j+1].Count swap`).  It is
modelled generically in the count projection: `bubblePassUpTo cnt m` performs
one left-to-right pass of at most `m` adjacent comparisons, and the outer
loop applies passes with bounds `n-1, n-2, …, 1`. -/

/-- One bubble pass of at most `m` adjacent comparisons, swapping when the
left count is strictly smaller (descending order). -/
def bubblePassUpTo {α : Type} (cnt : α → Nat) : Nat → List α → List α
  | _, [] => []
  | _, [a] => [a]
  | 0, l => l
  | m + 1, a :: b :: rest =>
    if cnt a < cnt b then b :: bubblePassUpTo cnt m (a :: rest)
    else a :: bubblePassUpTo cnt m (b :: rest)

/-- The outer loop: passes with bounds `k, k-1, …, 1`. -/
def bubbleIters {α : Type} (cnt : α → Nat) : Nat → List α → List α
  | 0, l => l
  | k + 1, l => bubbleIters cnt k (bubblePassUpTo cnt (k + 1) l)

/-- The whole bubble sort as written in `calculateDomainStatistics` and
`calculateIPStatistics`: `len(l) - 1` shrinking passes, descending in `cnt`. -/
def goBubbleSortDesc {α : Type} (cnt : α → Nat) (l : List α) : List α :=
  bubbleIters cnt (l.length - 1) l

/-! ### Domain aggregation (`calculateDomainStatistics`)

The Go function accumulates groups in `apexDomainMap`, a Go map keyed by apex
domain.  The map is modelled as an insertion-ordered association list
(`domainGroupsFold`); the unspecified order in which Go map iteration
enumerates the groups when building the output slice is modelled by an
explicit `iter` argument, constrained in the theorems to be a permutation of
the map contents. -/

/-- One iteration of the Go result loop: skip on parse failure, empty
hostname or empty apex classification; otherwise create the group on first
sight and fold the record into it.  The state is the map (as an
insertion-ordered list) plus the running `totalSubdomains` counter. -/
def domainFoldStep (st : List apexDomain × Nat) (result : Result) :
    List apexDomain × Nat :=
  match goUrlParse result.URL with
  | none => st
  | some parsedURL =>
    let hostname := parsedURL.hostname
    if hostname = "" then st
    else
      let apexDomainName := extractApexDomain result.URL
      if apexDomainName = "" then st
      else
        let groups :=
          if st.1.any (fun g => g.Domain == apexDomainName) then st.1
          else st.1 ++ [{ Domain := apexDomainName, IsApex := false, ResultID := 0,
                          Subdomains := [], Count := 0 }]
        let protocol := parsedURL.Scheme
        let port := defaultedPort protocol parsedURL.port
        let entry : subdomain :=
          { Domain := hostname, ResultID := result.ID, URL := result.URL,
            Protocol := protocol, Port := port }
        let groups := groups.map (fun g =>
          if g.Domain == apexDomainName then
            if hostname == apexDomainName then
              { g with Count := g.Count + 1, Subdomains := g.Subdomains ++ [entry],
                       IsApex := true,
                       ResultID := if g.ResultID = 0 then result.ID else g.ResultID }
            else
              { g with Count := g.Count + 1, Subdomains := g.Subdomains ++ [entry] }
          else g)
        (groups, if hostname == apexDomainName then st.2 else st.2 + 1)

/-- The result loop of `calculateDomainStatistics`: the final map contents (in
insertion order) and the `totalSubdomains` counter. -/
def domainGroupsFold (results : List Result) : List apexDomain × Nat :=
  results.foldl domainFoldStep ([], 0)

/-- `calculateDomainStatistics`, with the Go map iteration order of the
map-to-slice conversion supplied as `iter`. -/
def calculateDomainStatistics (iter : List apexDomain) (results : List Result) :
    domainStatistics :=
  let st := domainGroupsFold results
  { UniqueApexDomains := st.1.length,
    TotalSubdomains := st.2,
    TotalDomains := results.length,
    ApexDomains := goBubbleSortDesc (fun g => g.Count) iter }

/-- The skip decision of both aggregators for one record: `some hostname`
when the record's URL parses to a non-empty hostname. -/
def resultHostname (r : Result) : Option String :=
  match goUrlParse r.URL with
  | none => none
  | some u => if u.hostname = "" then none else some u.hostname

/-- The apex key under which the domain aggregator files a record, if any:
requires a parseable URL, a non-empty hostname and a non-empty apex. -/
def apexKeyOf (r : Result) : Option String :=
  match goUrlParse r.URL with
  | none => none
  | some u =>
    if u.hostname = "" then none
    else
      let a := extractApexDomain r.URL
      if a = "" then none else some a

/-! ### IP aggregation (`calculateIPStatistics`) -/

/-- One iteration of the Go result loop of `calculateIPStatistics`: skip on
empty IP, parse failure or empty hostname; create the entry on first sight of
the IP; then append the domain entry, bump the count and widen the
first/last-seen window by Go string comparison of formatted timestamps. -/
def ipFoldStep (ipMap : List ipEntry) (result : Result) : List ipEntry :=
  if result.IPAddress = "" then ipMap
  else
    match goUrlParse result.URL with
    | none => ipMap
    | some parsedURL =>
      let hostname := parsedURL.hostname
      if hostname = "" then ipMap
      else
        let protocol := parsedURL.Scheme
        let port := defaultedPort protocol parsedURL.port
        let ipMap :=
          if ipMap.any (fun e => e.IPAddress == result.IPAddress) then ipMap
          else ipMap ++ [{ IPAddress := result.IPAddress, DomainCount := 0,
                           FirstSeen := result.ProbedAt.format,
                           LastSeen := result.ProbedAt.format,
                           SampleDomain := hostname, ResultID := result.ID,
                           Domains := [] }]
        ipMap.map (fun e =>
          if e.IPAddress == result.IPAddress then
            let e := { e with DomainCount := e.DomainCount + 1,
                              Domains := e.Domains ++
                                [{ Domain := hostname, ResultID := result.ID,
                                   URL := result.URL, Protocol := protocol,
                                   Port := port }] }
            let currentProbed := result.ProbedAt.format
            let e := if strLt currentProbed e.FirstSeen then { e with FirstSeen := currentProbed } else e
            if strLt e.LastSeen currentProbed then { e with LastSeen := currentProbed } else e
          else e)

/-- The rows the IP aggregator reads (`WHERE ip_address != ''`). -/
def ipRows (results : List Result) : List Result :=
  results.filter (fun r => !(r.IPAddress == ""))

/-- The result loop of `calculateIPStatistics`: final map contents in
insertion order. -/
def ipGroupsFold (results : List Result) : List ipEntry :=
  (ipRows results).foldl ipFoldStep []

/-- `calculateIPStatistics`, with the Go map iteration order supplied as
`iter`. -/
def calculateIPStatistics (iter : List ipEntry) (results : List Result) :
    ipStatistics :=
  let ipMap := ipGroupsFold results
  { UniqueIPs := ipMap.length,
    TotalResults := (ipRows results).length,
    IPList := goBubbleSortDesc (fun e => e.DomainCount) iter }

/-! ### Go `net.ParseIP` model (`isValidIPAddress`, logo.go) -/

/-- Decimal value of a digit string (Go `dtoi`; overlong fields are rejected
by the 255 bound below exactly as Go's early "too big" cut-off rejects them). -/
def digitsToNat (cs : List Char) : Nat :=
  cs.foldl (fun n c => n * 10 + (c.toNat - 48)) 0

/-- One IPv4 field: non-empty digits, value at most 255, no leading zero. -/
def validIPv4Field (cs : List Char) : Bool :=
  !cs.isEmpty && cs.all Char.isDigit && digitsToNat cs ≤ 255 &&
    !(1 < cs.length && cs.head? == some '0')

/-- Go `parseIPv4`: exactly four valid dot-separated fields. -/
def parseIPv4 (s : List Char) : Bool :=
  let fields := splitChar '.' s
  fields.length == 4 && fields.all validIPv4Field

/-- One 16-bit IPv6 group: one to four hex digits. -/
def validIPv6Group (cs : List Char) : Bool :=
  !cs.isEmpty && cs.length ≤ 4 && cs.all (fun c => (hexVal c).isSome)

/-- 16-bit word count of a `":"`-free field list, where only the final field
may be an embedded dotted IPv4 (worth two words). -/
def ipv6FieldsWords : List (List Char) → Option Nat
  | [] => some 0
  | [f] =>
    if f.contains '.' then (if parseIPv4 f then some 2 else none)
    else if validIPv6Group f then some 1 else none
  | f :: rest =>
    if validIPv6Group f then (ipv6FieldsWords rest).map (· + 1) else none

/-- Go `parseIPv6`, modelled at field-structure level: hex groups separated
by `":"`, at most one `"::"` elision (which must hide at least one zero
group), an optional trailing embedded IPv4, eight words total.  Zone
identifiers are not modelled. -/
def parseIPv6 (s : List Char) : Bool :=
  if s.contains '%' then false
  else
    let fields := splitChar ':' s
    let emptyCount := (fields.filter List.isEmpty).length
    if emptyCount == 0 then
      match ipv6FieldsWords fields with
      | some w => w == 8
      | none => false
    else if fields == [[], [], []] then true
    else if emptyCount == 2 then
      match fields with
      | [] :: [] :: rest =>
        !rest.any List.isEmpty &&
          (match ipv6FieldsWords rest with | some w => decide (w ≤ 7) | none => false)
      | _ =>
        if fields.getLast? == some [] && fields.dropLast.getLast? == some [] then
          let rest := fields.dropLast.dropLast
          !rest.any List.isEmpty &&
            (match ipv6FieldsWords rest with | some w => decide (w ≤ 7) | none => false)
        else false
    else if emptyCount == 1 then
      !(fields.head? == some []) && !(fields.getLast? == some []) &&
        (match ipv6FieldsWords (fields.filter (fun f => !f.isEmpty)) with
         | some w => decide (w ≤ 7)
         | none => false)
    else false

/-- Go `net.ParseIP` scans for the first `.` or `:` to pick the v4 or v6
parser; no such character means failure. -/
def scanIPKind : List Char → Option Bool
  | [] => none
  | c :: rest =>
    if c = '.' then some true
    else if c = ':' then some false
    else scanIPKind rest

/-- `isValidIPAddress` (logo.go): `net.ParseIP(ip) != nil`. -/
def isValidIPAddress (ip : String) : Bool :=
  match scanIPKind ip.data with
  | some true => parseIPv4 ip.data
  | some false => parseIPv6 ip.data
  | none => false

/-! ### Persistence model for the IP-intelligence records (`models.IPInfo`,
`models.IPPort`) -/

/-- A `float64` value carried abstractly as its bit pattern; the embedded code
only copies these fields, never computes with them. -/
structure Float64Bits where
  bits : Nat
deriving Repr, DecidableEq

/-- The ip-api.com response (`IPAPIResponse`, logo.go). -/
structure IPAPIResponse where
  Query : String
  Status : String
  Country : String
  CountryCode : String
  Region : String
  RegionName : String
  City : String
  Zip : String
  Lat : Float64Bits
  Lon : Float64Bits
  Timezone : String
  ISP : String
  Org : String
  AS : String
  Message : String
deriving Repr, DecidableEq

/-- `models.IPInfo`: the persisted intelligence record (array-valued fields
are stored as serialized JSON strings, as in the Go model). -/
structure IPInfo where
  ID : Nat
  IPAddress : String
  Organization : String
  ISP : String
  ASN : String
  Country : String
  CountryCode : String
  City : String
  Region : String
  Postal : String
  Latitude : Float64Bits
  Longitude : Float64Bits
  OS : String
  Tags : String
  Ports : String
  Hostnames : String
  Domains : String
  Vulns : String
  LastUpdate : GoTime
  UpdatedAt : GoTime
  ScanSessionID : Option Nat
deriving Repr, DecidableEq

/-- `models.IPPort`: one discovered (IP, port) record. -/
structure IPPort where
  ID : Nat
  IPAddress : String
  Port : Int
  Protocol : String
  Service : String
  State : String
  Banner : String
  ScanSessionID : Option Nat
  DiscoveredAt : GoTime
  IsCDN : Bool
  CDNName : String
  CDNDetected : Bool
  OriginalHost : String
deriving Repr, DecidableEq

/-- The slice of the persistent store the resolver touches: the `ip_infos`
and `ip_ports` tables (store queries are modelled as reliable; gorm "record
not found" is the `none`/absent case). -/
structure IPStore where
  ipInfos : List IPInfo
  ipPorts : List IPPort
deriving Repr, DecidableEq

/-- Comma-joined rendering used by `json.Marshal` of an int slice. -/
def joinComma : List String → String
  | [] => ""
  | [s] => s
  | s :: rest => s ++ "," ++ joinComma rest

/-- `json.Marshal` of a Go `[]int`, as produced by `IPInfo.SetPorts`. -/
def jsonIntArray (ports : List Int) : String :=
  "[" ++ joinComma (ports.map toString) ++ "]"

/-- The record `storeFallbackIPData` builds from the ip-api data (zero-valued
fields stay empty; ports are serialized only when the scan found any). -/
def fallbackIPInfoRecord (now : GoTime) (ipAddress : String)
    (ipApiData : IPAPIResponse) (ports : List Int) : IPInfo :=
  { ID := 0, IPAddress := ipAddress, Organization := ipApiData.Org,
    ISP := ipApiData.ISP, ASN := ipApiData.AS, Country := ipApiData.Country,
    CountryCode := ipApiData.CountryCode, City := ipApiData.City,
    Region := ipApiData.RegionName, Postal := ipApiData.Zip,
    Latitude := ipApiData.Lat, Longitude := ipApiData.Lon,
    OS := "", Tags := "",
    Ports := if ports.isEmpty then "" else jsonIntArray ports,
    Hostnames := "", Domains := "", Vulns := "",
    LastUpdate := now, UpdatedAt := now, ScanSessionID := none }

/-- `storeFallbackIPData` (logo.go): check-then-insert keyed on the IP —
if a record for the IP already exists it is left untouched ("don't overwrite
Shodan data"); otherwise a new record is built from the ip-api data and
appended. -/
def storeFallbackIPData (st : IPStore) (now : GoTime) (ipAddress : String)
    (ipApiData : IPAPIResponse) (ports : List Int) : IPStore :=
  if st.ipInfos.any (fun x => x.IPAddress == ipAddress) then st
  else
    { st with ipInfos := st.ipInfos ++ [fallbackIPInfoRecord now ipAddress ipApiData ports] }

/-- The external providers the fallback path may consult: `none` models a
provider error (network failure, non-success status, naabu missing). -/
structure fallbackEnv where
  geo : Option IPAPIResponse
  naabu : Option (List Int)
deriving Repr, DecidableEq

/-- How many times each provider was invoked during one handler run. -/
structure providerCalls where
  geoCalls : Nat
  naabuCalls : Nat
deriving Repr, DecidableEq

/-- The intelligence phase of `IPInfoHandler` (logo.go, the code after the
ports/domains sections): look up the record; decide `needsFallback` (absent
record, or organization/ISP/country all blank); on fallback validate the IP
(invalid → log and skip), fetch geolocation, port-probe only when no port
records exist for the IP, store fallback data when geolocation succeeded,
and re-fetch the stored record.  Returns the final store, the provider call
counts, and the record the handler will render (`none` = zero value). -/
def ipInfoIntelPhase (st : IPStore) (env : fallbackEnv) (now : GoTime)
    (ipAddress : String) : IPStore × providerCalls × Option IPInfo :=
  let found := st.ipInfos.find? (fun x => x.IPAddress == ipAddress)
  let needsFallback :=
    match found with
    | none => true
    | some info => info.Organization == "" && info.ISP == "" && info.Country == ""
  if !needsFallback then (st, ⟨0, 0⟩, found)
  else if !isValidIPAddress ipAddress then (st, ⟨0, 0⟩, found)
  else
    let ipApiData := env.geo
    let portState :=
      if (st.ipPorts.filter (fun p => p.IPAddress == ipAddress)).isEmpty then
        (match env.naabu with
         | some scanPorts => (scanPorts, 1)
         | none => ([], 1))
      else ([], 0)
    match ipApiData with
    | some d =>
      let st2 := storeFallbackIPData st now ipAddress d portState.1
      let refetched := st2.ipInfos.find? (fun x => x.IPAddress == ipAddress)
      (st2, ⟨1, portState.2⟩,
        match refetched with
        | some x => some x
        | none => found)
    | none => (st, ⟨1, portState.2⟩, found)

/-! ### Statistics facade (`StatisticsHandler`, web/api/statistics.go) -/

/-- One row of the response-code histogram (`statisticsResponseCode`). -/
structure statisticsResponseCode where
  Code : Int
  Count : Int
deriving Repr, DecidableEq

/-- Target metadata drawn from the most recent scan session
(`targetInformation`). -/
structure targetInformation where
  CompanyName : String
  MainDomain : String
  LogoPath : String
  ScanStartTime : String
  ScanStatus : String
  Notes : String
deriving Repr, DecidableEq

/-- The whole statistics report (`statisticsResponse`); `TargetInfo` is the
optional field omitted on session-lookup failure. -/
structure statisticsResponse where
  DbSize : Int
  Results : Int
  Headers : Int
  NetworkLogs : Int
  ConsoleLogs : Int
  ResponseCodes : List statisticsResponseCode
  DomainStats : domainStatistics
  IPStats : ipStatistics
  TargetInfo : Option targetInformation
deriving Repr, DecidableEq

/-- The fields of `models.ScanSession` used by `getTargetInformation`. -/
structure ScanSession where
  CompanyName : String
  MainDomain : String
  LogoPath : String
  StartTime : GoTime
  Status : String
  Notes : String
deriving Repr, DecidableEq

/-- Oracle for the store reads `StatisticsHandler` performs, one `Except`
per query (`.error` = the query failed / store unreachable). -/
structure statsDB where
  dbsizeQuery : Except String Int
  resultsCountQuery : Except String Int
  headersCountQuery : Except String Int
  networkLogsCountQuery : Except String Int
  consoleLogsCountQuery : Except String Int
  responseCodesQuery : Except String (List statisticsResponseCode)
  domainResultsQuery : Except String (List Result)
  ipResultsQuery : Except String (List Result)
  sessionQuery : Except String ScanSession

/-- What the handler leaves on the HTTP response writer: `emptyReturn` is a
bare `return` after logging (nothing written, so the implicit 200/empty
reply); `httpError` is an explicit `http.Error` (only the JSON-marshal
failure path writes one, and marshalling this response shape cannot fail);
`okJSON` is the marshalled statistics body. -/
inductive handlerOutcome where
  | emptyReturn
  | httpError (status : Nat) (msg : String)
  | okJSON (resp : statisticsResponse)
deriving Repr, DecidableEq

/-- `getTargetInformation`: the most recent session row mapped to the
response shape; propagates the query error. -/
def getTargetInformation (q : Except String ScanSession) :
    Except String targetInformation :=
  match q with
  | .error e => .error e
  | .ok s =>
    .ok { CompanyName := s.CompanyName, MainDomain := s.MainDomain,
          LogoPath := s.LogoPath, ScanStartTime := s.StartTime.format,
          ScanStatus := s.Status, Notes := s.Notes }

/-- `StatisticsHandler`: every store read up to and including the two
aggregation queries aborts the request with a bare `return` on failure;
only the target-information lookup degrades gracefully (logged as a warning,
field omitted). -/
def StatisticsHandler (db : statsDB) (iterD : List apexDomain)
    (iterI : List ipEntry) : handlerOutcome :=
  match db.dbsizeQuery with
  | .error _ => .emptyReturn
  | .ok dbsize =>
    match db.resultsCountQuery with
    | .error _ => .emptyReturn
    | .ok resultsCount =>
      match db.headersCountQuery with
      | .error _ => .emptyReturn
      | .ok headersCount =>
        match db.networkLogsCountQuery with
        | .error _ => .emptyReturn
        | .ok networkLogsCount =>
          match db.consoleLogsCountQuery with
          | .error _ => .emptyReturn
          | .ok consoleLogsCount =>
            match db.responseCodesQuery with
            | .error _ => .emptyReturn
            | .ok counts =>
              match db.domainResultsQuery with
              | .error _ => .emptyReturn
              | .ok domainRows =>
                match db.ipResultsQuery with
                | .error _ => .emptyReturn
                | .ok ipResultRows =>
                  let domainStats := calculateDomainStatistics iterD domainRows
                  let ipStats := calculateIPStatistics iterI ipResultRows
                  let targetInfo :=
                    match getTargetInformation db.sessionQuery with
                    | .error _ => none
                    | .ok t => some t
                  .okJSON { DbSize := dbsize, Results := resultsCount,
                            Headers := headersCount,
                            NetworkLogs := networkLogsCount,
                            ConsoleLogs := consoleLogsCount,
                            ResponseCodes := counts,
                            DomainStats := domainStats, IPStats := ipStats,
                            TargetInfo := targetInfo }

/-! ### The three `IPPort` insertion paths (C9) -/

/-- A naabu JSON-line result (`NaabuResult`, cmd naabu scanner). -/
structure NaabuResult where
  Host : String
  IP : String
  Port : Int
  CDN : Bool
  CDNName : String
  Protocol : String
deriving Repr, DecidableEq

/-- The existence check all three insertion paths perform before insert:
`WHERE ip_address = ? AND port = ?`. -/
def ipPortPairExists (db : List IPPort) (ip : String) (port : Int) : Bool :=
  db.any (fun e => e.IPAddress == ip && e.Port == port)

/-- One line of `parseAndSaveResults` (naabu command): skip when the
(IP, port) pair exists, otherwise create the record. -/
def naabuSaveStep (sessionID : Option Nat) (now : GoTime) (db : List IPPort)
    (result : NaabuResult) : List IPPort :=
  if ipPortPairExists db result.IP result.Port then db
  else db ++ [{ ID := 0, IPAddress := result.IP, Port := result.Port,
                Protocol := result.Protocol, Service := "", State := "open",
                Banner := "", ScanSessionID := sessionID, DiscoveredAt := now,
                IsCDN := result.CDN, CDNName := result.CDNName,
                CDNDetected := true, OriginalHost := result.Host }]

/-- `parseAndSaveResults` over the parsed naabu result lines. -/
def parseAndSaveResults (sessionID : Option Nat) (now : GoTime)
    (db : List IPPort) (results : List NaabuResult) : List IPPort :=
  results.foldl (naabuSaveStep sessionID now) db

/-- One port of `createFallbackIPPortEntries` (shodan command fallback). -/
def fallbackPortStep (sessionID : Option Nat) (now : GoTime) (ip : String)
    (db : List IPPort) (port : Int) : List IPPort :=
  if ipPortPairExists db ip port then db
  else db ++ [{ ID := 0, IPAddress := ip, Port := port, Protocol := "tcp",
                Service := "", State := "open", Banner := "",
                ScanSessionID := sessionID, DiscoveredAt := now,
                IsCDN := false, CDNName := "", CDNDetected := false,
                OriginalHost := "" }]

/-- `createFallbackIPPortEntries`. -/
def createFallbackIPPortEntries (sessionID : Option Nat) (now : GoTime)
    (db : List IPPort) (ip : String) (ports : List Int) : List IPPort :=
  ports.foldl (fallbackPortStep sessionID now ip) db

/-- The fields of `shodan.Host` read by `createIPPortEntries`. -/
structure shodanHost where
  IP : String
  Ports : List Int
deriving Repr, DecidableEq

/-- One port of `createIPPortEntries` (shodan command, Shodan-sourced). -/
def shodanPortStep (sessionID : Option Nat) (now : GoTime) (hostIP : String)
    (db : List IPPort) (port : Int) : List IPPort :=
  if ipPortPairExists db hostIP port then db
  else db ++ [{ ID := 0, IPAddress := hostIP, Port := port, Protocol := "tcp",
                Service := "", State := "open", Banner := "",
                ScanSessionID := sessionID, DiscoveredAt := now,
                IsCDN := false, CDNName := "", CDNDetected := false,
                OriginalHost := "" }]

/-- `createIPPortEntries`. -/
def createIPPortEntries (sessionID : Option Nat) (now : GoTime)
    (db : List IPPort) (host : shodanHost) : List IPPort :=
  host.Ports.foldl (shodanPortStep sessionID now host.IP) db

/-! ### Invariants of the domain aggregation fold -/

/-- Number of records of `pre` the domain aggregator files under apex `d`. -/
def keyCountFilter (pre : List Result) (d : String) : Nat :=
  (pre.filter (fun r' => apexKeyOf r' == some d)).length

/-- Number of records of `pre` the domain aggregator does not skip. -/
def processedCount (pre : List Result) : Nat :=
  (pre.filter (fun r' => (apexKeyOf r').isSome)).length

/-- Invariant of the domain fold state after processing `pre`: every
processed record's apex has a group, group keys are distinct, each group's
count equals its subdomain-list length and the number of records filed under
its apex, and the counts sum to the number of processed records. -/
def DomainInv (pre : List Result) (st : List apexDomain × Nat) : Prop :=
  (∀ r' ∈ pre, ∀ a, apexKeyOf r' = some a → a ∈ st.1.map apexDomain.Domain) ∧
  (st.1.map apexDomain.Domain).Nodup ∧
  (∀ g ∈ st.1, g.Count = g.Subdomains.length) ∧
  (∀ g ∈ st.1, g.Count = keyCountFilter pre g.Domain) ∧
  (st.1.map apexDomain.Count).sum = processedCount pre

/-- Whether the IP aggregator folds record `r` into the group of `ip`:
non-empty IP equal to `ip`, parseable URL, non-empty hostname. -/
def ipContributes (ip : String) (r : Result) : Bool :=
  !(r.IPAddress == "") && (r.IPAddress == ip) && (resultHostname r).isSome

/-- Formatted timestamps of the records folded into the group of `ip`. -/
def fmtsFor (ip : String) (pre : List Result) : List String :=
  (pre.filter (ipContributes ip)).map (fun r => r.ProbedAt.format)

/-- Invariant of the IP fold after processing `pre`: every contributing
record has a group, and each group's first-seen/last-seen are respectively a
member and a lower/upper bound of the contributing records' formatted
timestamps. -/
def IPInv (pre : List Result) (m : List ipEntry) : Prop :=
  (∀ r' ∈ pre, ipContributes r'.IPAddress r' = true →
    ∃ e ∈ m, e.IPAddress = r'.IPAddress) ∧
  (∀ e ∈ m, e.FirstSeen ∈ fmtsFor e.IPAddress pre ∧
    e.LastSeen ∈ fmtsFor e.IPAddress pre ∧
    ∀ t ∈ fmtsFor e.IPAddress pre, strLe e.FirstSeen t = true ∧ strLe t e.LastSeen = true)

/-! ### Concrete record sets used by the claim theorems -/

/-- Two records under distinct apex domains, both of count one (equal-count
groups with first-observed order `a.com`, `b.com`). -/
def c1Records : List Result :=
  [{ ID := 1, URL := "http://a.com", IPAddress := "", ProbedAt := ⟨2024, 1, 1, 0, 0, 0⟩ },
   { ID := 2, URL := "http://b.com", IPAddress := "", ProbedAt := ⟨2024, 1, 1, 0, 0, 0⟩ }]

/-- One well-formed record plus one with an unparseable URL. -/
def c10Records : List Result :=
  [{ ID := 1, URL := "http://a.com", IPAddress := "", ProbedAt := ⟨2024, 1, 1, 0, 0, 0⟩ },
   { ID := 2, URL := "::::not a url", IPAddress := "", ProbedAt := ⟨2024, 1, 1, 0, 0, 0⟩ }]

/-- Three probes of IP `1.2.3.4` with out-of-order timestamps, as in the
spec's first/last-seen example. -/
def c5Records : List Result :=
  [{ ID := 1, URL := "http://a.com", IPAddress := "1.2.3.4", ProbedAt := ⟨2024, 1, 2, 10, 0, 0⟩ },
   { ID := 2, URL := "http://a.com", IPAddress := "1.2.3.4", ProbedAt := ⟨2024, 1, 1, 9, 0, 0⟩ },
   { ID := 3, URL := "http://a.com", IPAddress := "1.2.3.4", ProbedAt := ⟨2024, 1, 3, 11, 0, 0⟩ }]

/-- The `a.com` group of the two-record set. -/
def c3Group : apexDomain :=
  { Domain := "a.com", IsApex := true, ResultID := 1,
    Subdomains := [{ Domain := "a.com", ResultID := 1, URL := "http://a.com",
                     Protocol := "http", Port := "80" }],
    Count := 1 }

/-- The single IP group of `c5Records`. -/
def c5Entry : ipEntry :=
  { IPAddress := "1.2.3.4", DomainCount := 3,
    FirstSeen := "2024-01-01 09:00:00", LastSeen := "2024-01-03 11:00:00",
    SampleDomain := "a.com", ResultID := 1,
    Domains := [{ Domain := "a.com", ResultID := 1, URL := "http://a.com",
                  Protocol := "http", Port := "80" },
                { Domain := "a.com", ResultID := 2, URL := "http://a.com",
                  Protocol := "http", Port := "80" },
                { Domain := "a.com", ResultID := 3, URL := "http://a.com",
                  Protocol := "http", Port := "80" }] }

/-- The geolocation response used by the C2 witness. -/
def c2Geo : IPAPIResponse :=
  { Query := "1.2.3.4", Status := "success", Country := "Denmark",
    CountryCode := "DK", Region := "84", RegionName := "Hovedstaden",
    City := "Copenhagen", Zip := "1050", Lat := ⟨0⟩, Lon := ⟨0⟩,
    Timezone := "Europe/Copenhagen", ISP := "TestISP", Org := "TestOrg",
    AS := "AS1234", Message := "" }

/-- The provider environment used by the C2 witness: geolocation succeeds,
the port probe fails. -/
def c2Env : fallbackEnv := { geo := some c2Geo, naabu := none }

/-- A store already holding a fallback record for `1.2.3.4`. -/
def c2StoreWith : IPStore :=
  { ipInfos := [fallbackIPInfoRecord ⟨2024, 1, 1, 0, 0, 0⟩ "1.2.3.4" c2Geo []],
    ipPorts := [] }

/-! ### Statistics facade claims (C6) -/

/-- Whether a store query succeeded. -/
def exceptOk {β : Type} : Except String β → Bool
  | .ok _ => true
  | .error _ => false

/-- Whether the handler wrote an explicit HTTP error response. -/
def handlerOutcome.isServerErr : handlerOutcome → Bool
  | .httpError _ _ => true
  | _ => false

/-- All store reads the handler treats as fatal. -/
def statsDBFatalOk (db : statsDB) : Bool :=
  exceptOk db.dbsizeQuery && exceptOk db.resultsCountQuery &&
  exceptOk db.headersCountQuery && exceptOk db.networkLogsCountQuery &&
  exceptOk db.consoleLogsCountQuery && exceptOk db.responseCodesQuery &&
  exceptOk db.domainResultsQuery && exceptOk db.ipResultsQuery

/-- A healthy store oracle. -/
def c6OkDB : statsDB :=
  { dbsizeQuery := .ok 4096, resultsCountQuery := .ok 2,
    headersCountQuery := .ok 0, networkLogsCountQuery := .ok 0,
    consoleLogsCountQuery := .ok 0, responseCodesQuery := .ok [],
    domainResultsQuery := .ok [], ipResultsQuery := .ok [],
    sessionQuery := .ok { CompanyName := "Acme", MainDomain := "acme.com",
                          LogoPath := "", StartTime := ⟨2024, 1, 1, 0, 0, 0⟩,
                          Status := "active", Notes := "" } }

/-- The same store with the results count query failing. -/
def c6FailDB : statsDB := { c6OkDB with resultsCountQuery := .error "database is locked" }

/-- The same store with only the session lookup failing. -/
def c6NoSessionDB : statsDB := { c6OkDB with sessionQuery := .error "record not found" }

/-! ### Port-record dedup claims (C9) -/

/-- The (IP address, port) key list of the `ip_ports` table. -/
def ipPortKeys (db : List IPPort) : List (String × Int) :=
  db.map (fun e => (e.IPAddress, e.Port))

/-- An existing port record for `1.2.3.4:80`. -/
def c9Existing : IPPort :=
  { ID := 1, IPAddress := "1.2.3.4", Port := 80, Protocol := "tcp",
    Service := "", State := "open", Banner := "", ScanSessionID := none,
    DiscoveredAt := ⟨2024, 1, 1, 0, 0, 0⟩, IsCDN := false, CDNName := "",
    CDNDetected := true, OriginalHost := "a.com" }

theorem charListLt_irrefl (cs : List Char) : charListLt cs cs = false := by
  induction cs with
  | nil => rfl
  | cons a as ih => simp [charListLt, ih]

theorem charListLt_trans {as bs cs : List Char}
    (h₁ : charListLt as bs = true) (h₂ : charListLt bs cs = true) :
    charListLt as cs = true := by
  induction as generalizing bs cs with
  | nil =>
    cases bs with
    | nil => simp [charListLt] at h₁
    | cons b bs' =>
      cases cs with
      | nil => simp [charListLt] at h₂
      | cons c cs' => simp [charListLt]
  | cons a as' ih =>
    cases bs with
    | nil => simp [charListLt] at h₁
    | cons b bs' =>
      cases cs with
      | nil => simp [charListLt] at h₂
      | cons c cs' =>
        simp only [charListLt] at h₁ h₂ ⊢
        by_cases hab : a.toNat < b.toNat
        · by_cases hbc : b.toNat < c.toNat
          · have hac : a.toNat < c.toNat := by omega
            simp [hac]
          · by_cases hcb : c.toNat < b.toNat
            · simp [hbc, hcb] at h₂
            · have hac : a.toNat < c.toNat := by omega
              simp [hac]
        · by_cases hba : b.toNat < a.toNat
          · simp [hab, hba] at h₁
          · simp [hab, hba] at h₁
            by_cases hbc : b.toNat < c.toNat
            · have hac : a.toNat < c.toNat := by omega
              simp [hac]
            · by_cases hcb : c.toNat < b.toNat
              · simp [hbc, hcb] at h₂
              · simp [hbc, hcb] at h₂
                have hac : ¬ a.toNat < c.toNat := by omega
                have hca : ¬ c.toNat < a.toNat := by omega
                simp [hac, hca]
                exact ih h₁ h₂

theorem strLt_irrefl (s : String) : strLt s s = false := charListLt_irrefl s.data

theorem strLt_trans {a b c : String} (h₁ : strLt a b = true) (h₂ : strLt b c = true) :
    strLt a c = true := charListLt_trans h₁ h₂

theorem strLe_refl (s : String) : strLe s s = true := by
  simp [strLe, strLt_irrefl]

/-- If `a < b` and `¬(r < b)` then `¬(r < a)`: a lower bound propagates
downward past a strictly smaller new minimum. -/
theorem strLt_false_of_lt_of_not_lt {a b r : String}
    (hab : strLt a b = true) (hrb : strLt r b = false) : strLt r a = false := by
  by_contra h
  have hra : strLt r a = true := by
    cases hx : strLt r a with
    | false => exact absurd hx h
    | true => rfl
  exact absurd (strLt_trans hra hab) (by simp [hrb])

/-! ### Properties of the Go bubble sort -/

theorem bubblePassUpTo_perm {α : Type} (cnt : α → Nat) :
    ∀ (m : Nat) (l : List α), (bubblePassUpTo cnt m l).Perm l := by
  intro m
  induction m with
  | zero =>
    intro l
    match l with
    | [] => simp [bubblePassUpTo]
    | [a] => simp [bubblePassUpTo]
    | a :: b :: rest => simp [bubblePassUpTo]
  | succ m ih =>
    intro l
    match l with
    | [] => simp [bubblePassUpTo]
    | [a] => simp [bubblePassUpTo]
    | a :: b :: rest =>
      simp only [bubblePassUpTo]
      by_cases hab : cnt a < cnt b
      · rw [if_pos hab]
        exact ((ih (a :: rest)).cons b).trans (List.Perm.swap a b rest)
      · rw [if_neg hab]
        exact (ih (b :: rest)).cons a

theorem bubblePassUpTo_filter {α : Type} (cnt : α → Nat) (c : Nat) :
    ∀ (m : Nat) (l : List α),
      (bubblePassUpTo cnt m l).filter (fun x => cnt x == c) =
        l.filter (fun x => cnt x == c) := by
  intro m
  induction m with
  | zero =>
    intro l
    match l with
    | [] => simp [bubblePassUpTo]
    | [a] => simp [bubblePassUpTo]
    | a :: b :: rest => simp [bubblePassUpTo]
  | succ m ih =>
    intro l
    match l with
    | [] => simp [bubblePassUpTo]
    | [a] => simp [bubblePassUpTo]
    | a :: b :: rest =>
      simp only [bubblePassUpTo]
      by_cases hab : cnt a < cnt b
      · rw [if_pos hab]
        by_cases ha : cnt a = c
        · by_cases hb : cnt b = c
          · omega
          · simp [List.filter_cons, ha, hb, ih (a :: rest)]
        · by_cases hb : cnt b = c
          · simp [List.filter_cons, ha, hb, ih (a :: rest)]
          · simp [List.filter_cons, ha, hb, ih (a :: rest)]
      · rw [if_neg hab]
        simp [List.filter_cons, ih (b :: rest)]

theorem bubblePassUpTo_append {α : Type} (cnt : α → Nat) :
    ∀ (m : Nat) (l1 l2 : List α), l1.length = m + 1 →
      bubblePassUpTo cnt m (l1 ++ l2) = bubblePassUpTo cnt m l1 ++ l2 := by
  intro m
  induction m with
  | zero =>
    intro l1 l2 h
    match l1, h with
    | [a], _ =>
      cases l2 with
      | nil => simp
      | cons x xs => simp [bubblePassUpTo]
  | succ m ih =>
    intro l1 l2 h
    match l1, h with
    | [a], h => simp at h
    | a :: b :: rest, h =>
      have hlen : (a :: rest).length = m + 1 := by
        simp only [List.length_cons] at h ⊢
        omega
      have hlen' : (b :: rest).length = m + 1 := by
        simp only [List.length_cons] at h ⊢
        omega
      show (if cnt a < cnt b then b :: bubblePassUpTo cnt m ((a :: rest) ++ l2)
            else a :: bubblePassUpTo cnt m ((b :: rest) ++ l2)) =
          (if cnt a < cnt b then b :: bubblePassUpTo cnt m (a :: rest)
            else a :: bubblePassUpTo cnt m (b :: rest)) ++ l2
      by_cases hab : cnt a < cnt b
      · rw [if_pos hab, if_pos hab, List.cons_append]
        exact congrArg (b :: ·) (ih (a :: rest) l2 hlen)
      · rw [if_neg hab, if_neg hab, List.cons_append]
        exact congrArg (a :: ·) (ih (b :: rest) l2 hlen')

theorem bubblePassUpTo_minLast {α : Type} (cnt : α → Nat) :
    ∀ (rest : List α) (a : α) (m : Nat), rest.length ≤ m →
      ∃ ys mn, bubblePassUpTo cnt m (a :: rest) = ys ++ [mn] ∧
        ys.length = rest.length ∧ (∀ y ∈ ys, cnt mn ≤ cnt y) ∧
        (ys ++ [mn]).Perm (a :: rest) := by
  intro rest
  induction rest with
  | nil =>
    intro a m _
    refine ⟨[], a, ?_, by simp, by simp, by simp⟩
    cases m <;> simp [bubblePassUpTo]
  | cons b rest' ih =>
    intro a m hlen
    obtain ⟨m', rfl⟩ : ∃ m', m = m' + 1 := ⟨m - 1, by simp at hlen; omega⟩
    have hm' : rest'.length ≤ m' := by simp at hlen; omega
    simp only [bubblePassUpTo]
    by_cases hab : cnt a < cnt b
    · rw [if_pos hab]
      obtain ⟨ys', mn', heq, hlen', hmin', hperm'⟩ := ih a m' hm'
      refine ⟨b :: ys', mn', by simp [heq], by simp [hlen'], ?_, ?_⟩
      · intro y hy
        rcases List.mem_cons.mp hy with rfl | hy'
        · have ha_mem : a ∈ ys' ++ [mn'] := hperm'.mem_iff.mpr (List.mem_cons_self a rest')
          rcases List.mem_append.mp ha_mem with h1 | h2
          · exact le_trans (hmin' a h1) (le_of_lt hab)
          · have hma : a = mn' := by simpa using h2
            exact hma ▸ le_of_lt hab
        · exact hmin' y hy'
      · exact List.Perm.trans (hperm'.cons b) (List.Perm.swap a b rest')
    · rw [if_neg hab]
      obtain ⟨ys', mn', heq, hlen', hmin', hperm'⟩ := ih b m' hm'
      refine ⟨a :: ys', mn', by simp [heq], by simp [hlen'], ?_, ?_⟩
      · intro y hy
        rcases List.mem_cons.mp hy with rfl | hy'
        · have hb_mem : b ∈ ys' ++ [mn'] := hperm'.mem_iff.mpr (List.mem_cons_self b rest')
          rcases List.mem_append.mp hb_mem with h1 | h2
          · exact le_trans (hmin' b h1) (Nat.le_of_not_lt hab)
          · have hmb : b = mn' := by simpa using h2
            exact hmb ▸ Nat.le_of_not_lt hab
        · exact hmin' y hy'
      · exact hperm'.cons a

theorem bubbleIters_perm {α : Type} (cnt : α → Nat) :
    ∀ (k : Nat) (l : List α), (bubbleIters cnt k l).Perm l := by
  intro k
  induction k with
  | zero => intro l; simp [bubbleIters]
  | succ k ih =>
    intro l
    exact (ih (bubblePassUpTo cnt (k + 1) l)).trans (bubblePassUpTo_perm cnt (k + 1) l)

theorem bubbleIters_filter {α : Type} (cnt : α → Nat) (c : Nat) :
    ∀ (k : Nat) (l : List α),
      (bubbleIters cnt k l).filter (fun x => cnt x == c) =
        l.filter (fun x => cnt x == c) := by
  intro k
  induction k with
  | zero => intro l; simp [bubbleIters]
  | succ k ih =>
    intro l
    rw [bubbleIters, ih (bubblePassUpTo cnt (k + 1) l),
      bubblePassUpTo_filter cnt c (k + 1) l]

theorem bubbleIters_sorted {α : Type} (cnt : α → Nat) :
    ∀ (k : Nat) (front back : List α), front.length = k + 1 →
      List.Pairwise (fun x y => cnt y ≤ cnt x) back →
      (∀ x ∈ front, ∀ y ∈ back, cnt y ≤ cnt x) →
      List.Pairwise (fun x y => cnt y ≤ cnt x) (bubbleIters cnt k (front ++ back)) := by
  intro k
  induction k with
  | zero =>
    intro front back hlen hback hdom
    match front, hlen with
    | [a], _ =>
      simp only [bubbleIters, List.cons_append, List.nil_append]
      exact List.Pairwise.cons (fun y hy => hdom a (by simp) y hy) hback
  | succ k ih =>
    intro front back hlen hback hdom
    simp only [bubbleIters]
    rw [bubblePassUpTo_append cnt (k + 1) front back hlen]
    obtain ⟨a, rest, rfl⟩ : ∃ a rest, front = a :: rest := by
      cases front with
      | nil => simp at hlen
      | cons a rest => exact ⟨a, rest, rfl⟩
    have hrest : rest.length ≤ k + 1 := by simp at hlen; omega
    obtain ⟨ys, mn, heq, hlen', hmin, hperm⟩ := bubblePassUpTo_minLast cnt rest a (k + 1) hrest
    rw [heq, List.append_assoc]
    have hmn_mem : mn ∈ a :: rest := hperm.mem_iff.mp (by simp)
    refine ih ys (mn :: back) ?_ ?_ ?_
    · simp at hlen
      omega
    · refine List.Pairwise.cons (fun y hy => hdom mn hmn_mem y hy) hback
    · intro x hx y hy
      have hx_front : x ∈ a :: rest := hperm.mem_iff.mp (List.mem_append.mpr (Or.inl hx))
      rcases List.mem_cons.mp hy with rfl | hy'
      · exact hmin x hx
      · exact hdom x hx_front y hy'

/-- The bubble sort used by both aggregators is a permutation of its input. -/
theorem goBubbleSortDesc_perm {α : Type} (cnt : α → Nat) (l : List α) :
    (goBubbleSortDesc cnt l).Perm l :=
  bubbleIters_perm cnt (l.length - 1) l

/-- The bubble sort used by both aggregators produces a count-descending
list. -/
theorem goBubbleSortDesc_sorted {α : Type} (cnt : α → Nat) (l : List α) :
    List.Pairwise (fun x y => cnt y ≤ cnt x) (goBubbleSortDesc cnt l) := by
  cases l with
  | nil => simp [goBubbleSortDesc, bubbleIters]
  | cons a rest =>
    have h := bubbleIters_sorted cnt rest.length (a :: rest) []
      (by simp) (by simp) (by simp)
    simpa [goBubbleSortDesc] using h

/-- The bubble sort used by both aggregators is stable: it preserves the
relative input order of entries with any given count. -/
theorem goBubbleSortDesc_filter {α : Type} (cnt : α → Nat) (c : Nat) (l : List α) :
    (goBubbleSortDesc cnt l).filter (fun x => cnt x == c) =
      l.filter (fun x => cnt x == c) :=
  bubbleIters_filter cnt c (l.length - 1) l

theorem domainFoldStep_skip (st : List apexDomain × Nat) (r : Result)
    (h : apexKeyOf r = none) : domainFoldStep st r = st := by
  simp only [apexKeyOf] at h
  simp only [domainFoldStep]
  cases hu : goUrlParse r.URL with
  | none => simp
  | some u =>
    rw [hu] at h
    simp only at h
    by_cases hh : u.hostname = ""
    · simp [hh]
    · rw [if_neg hh] at h
      by_cases ha : extractApexDomain r.URL = ""
      · simp [hh, ha]
      · rw [if_neg ha] at h
        cases h

theorem apexKeyOf_some {r : Result} {a : String} (h : apexKeyOf r = some a) :
    ∃ u, goUrlParse r.URL = some u ∧ u.hostname ≠ "" ∧
      extractApexDomain r.URL = a ∧ a ≠ "" := by
  simp only [apexKeyOf] at h
  cases hu : goUrlParse r.URL with
  | none => rw [hu] at h; cases h
  | some u =>
    rw [hu] at h
    simp only at h
    by_cases hh : u.hostname = ""
    · rw [if_pos hh] at h; cases h
    · rw [if_neg hh] at h
      by_cases ha : extractApexDomain r.URL = ""
      · rw [if_pos ha] at h; cases h
      · rw [if_neg ha] at h
        have h2 : extractApexDomain r.URL = a := by injection h
        exact ⟨u, rfl, hh, h2, fun hcon => ha (h2.trans hcon)⟩

theorem domainFoldStep_active (st : List apexDomain × Nat) (r : Result)
    (u : GoURL) (a : String) (hu : goUrlParse r.URL = some u)
    (hh : u.hostname ≠ "") (ha : extractApexDomain r.URL = a) (hne : a ≠ "") :
    domainFoldStep st r =
      ((if st.1.any (fun g => g.Domain == a) then st.1
        else st.1 ++ [{ Domain := a, IsApex := false, ResultID := 0,
                        Subdomains := [], Count := 0 }]).map
          (fun g => if g.Domain == a then
              (if u.hostname == a then
                { g with Count := g.Count + 1,
                         Subdomains := g.Subdomains ++
                           [{ Domain := u.hostname, ResultID := r.ID, URL := r.URL,
                              Protocol := u.Scheme,
                              Port := defaultedPort u.Scheme u.port }],
                         IsApex := true,
                         ResultID := if g.ResultID = 0 then r.ID else g.ResultID }
              else
                { g with Count := g.Count + 1,
                         Subdomains := g.Subdomains ++
                           [{ Domain := u.hostname, ResultID := r.ID, URL := r.URL,
                              Protocol := u.Scheme,
                              Port := defaultedPort u.Scheme u.port }] })
            else g),
       if u.hostname == a then st.2 else st.2 + 1) := by
  simp only [domainFoldStep, hu, ha]
  rw [if_neg hh, if_neg hne]

/-- Pointwise key preservation lifts to the mapped key list. -/
theorem map_key_of_pointwise {α : Type} (key : α → String) (f : α → α)
    (hf : ∀ g, key (f g) = key g) (l : List α) : (l.map f).map key = l.map key := by
  induction l with
  | nil => rfl
  | cons g t ih => simp [hf, ih]

/-- Applying an update that bumps the count of the unique key-`a` element by
one raises the count sum by exactly one. -/
theorem sum_cnt_map_upd {α : Type} (key : α → String) (cnt2 : α → Nat) (f : α → α)
    (a : String) (hmatch : ∀ g, key g = a → cnt2 (f g) = cnt2 g + 1)
    (hmiss : ∀ g, key g ≠ a → f g = g) :
    ∀ (l : List α), (l.map key).Nodup → a ∈ l.map key →
      ((l.map f).map cnt2).sum = ((l.map cnt2).sum) + 1 := by
  intro l
  induction l with
  | nil => intro _ hmem; simp at hmem
  | cons g t ih =>
    intro hnd hmem
    rw [List.map_cons, List.nodup_cons] at hnd
    rw [List.map_cons, List.mem_cons] at hmem
    by_cases hga : key g = a
    · have hnot : a ∉ t.map key := hga ▸ hnd.1
      have ht : t.map f = t := by
        have hfix : ∀ x ∈ t, f x = x := by
          intro x hx
          refine hmiss x (fun hxa => hnot ?_)
          rw [← hxa]
          exact List.mem_map_of_mem key hx
        calc t.map f = t.map id := List.map_congr_left hfix
          _ = t := List.map_id t
      simp only [List.map_cons, ht, List.sum_cons, hmatch g hga]
      omega
    · have hfg : f g = g := hmiss g hga
      have hmem' : a ∈ t.map key := by
        rcases hmem with h' | h'
        · exact absurd h'.symm hga
        · exact h'
      simp only [List.map_cons, hfg, List.sum_cons, ih hnd.2 hmem']
      omega

theorem DomainInv_nil : DomainInv [] ([], 0) := by
  refine ⟨?_, ?_, ?_, ?_, ?_⟩ <;> simp [keyCountFilter, processedCount]

theorem DomainInv_step (pre : List Result) (st : List apexDomain × Nat)
    (r : Result) (h : DomainInv pre st) :
    DomainInv (pre ++ [r]) (domainFoldStep st r) := by
  obtain ⟨h0, h2, h1, h3, h5⟩ := h
  cases hk : apexKeyOf r with
  | none =>
    rw [domainFoldStep_skip st r hk]
    refine ⟨?_, h2, h1, ?_, ?_⟩
    · intro r' hr' a' ha'
      rcases List.mem_append.mp hr' with h' | h'
      · exact h0 r' h' a' ha'
      · have : r' = r := by simpa using h'
        rw [this, hk] at ha'
        cases ha'
    · intro g hg
      have hzero : ([r].filter (fun r' => apexKeyOf r' == some g.Domain)) = [] := by
        simp [List.filter, hk]
      rw [h3 g hg]
      simp [keyCountFilter, List.filter_append, hzero]
    · have hzero : ([r].filter (fun r' => (apexKeyOf r').isSome)) = [] := by
        simp [List.filter, hk]
      simp [processedCount, List.filter_append, hzero] at h5 ⊢
      simpa [processedCount] using h5
  | some a =>
    obtain ⟨u, hu, hh, ha, hne⟩ := apexKeyOf_some hk
    rw [domainFoldStep_active st r u a hu hh ha hne]
    set e : subdomain :=
      { Domain := u.hostname, ResultID := r.ID, URL := r.URL,
        Protocol := u.Scheme, Port := defaultedPort u.Scheme u.port } with he
    set upd : apexDomain → apexDomain :=
      (fun g => if g.Domain == a then
          (if u.hostname == a then
            { g with Count := g.Count + 1, Subdomains := g.Subdomains ++ [e],
                     IsApex := true,
                     ResultID := if g.ResultID = 0 then r.ID else g.ResultID }
          else
            { g with Count := g.Count + 1, Subdomains := g.Subdomains ++ [e] })
        else g) with hupd
    have hupd_dom : ∀ g, (upd g).Domain = g.Domain := by
      intro g
      rw [hupd]
      dsimp only
      split
      · split <;> rfl
      · rfl
    have hupd_cnt : ∀ g, g.Domain = a → (upd g).Count = g.Count + 1 := by
      intro g hg
      rw [hupd]
      dsimp only
      rw [if_pos (by simp [hg])]
      split <;> rfl
    have hupd_sub : ∀ g, g.Domain = a → (upd g).Subdomains = g.Subdomains ++ [e] := by
      intro g hg
      rw [hupd]
      dsimp only
      rw [if_pos (by simp [hg])]
      split <;> rfl
    have hupd_miss : ∀ g, g.Domain ≠ a → upd g = g := by
      intro g hg
      rw [hupd]
      dsimp only
      rw [if_neg (by simpa using hg)]
    set groups1 :=
      (if st.1.any (fun g => g.Domain == a) then st.1
       else st.1 ++ [{ Domain := a, IsApex := false, ResultID := 0,
                       Subdomains := [], Count := 0 }]) with hg1
    have hkeys1 : groups1.map apexDomain.Domain =
        (if st.1.any (fun g => g.Domain == a) then st.1.map apexDomain.Domain
         else st.1.map apexDomain.Domain ++ [a]) := by
      rw [hg1]
      split <;> simp
    have hmem_a : a ∈ groups1.map apexDomain.Domain := by
      rw [hkeys1]
      by_cases hany : st.1.any (fun g => g.Domain == a)
      · rw [if_pos hany]
        obtain ⟨g, hg, hga⟩ := List.any_eq_true.mp hany
        have : g.Domain = a := by simpa using hga
        rw [← this]
        exact List.mem_map_of_mem apexDomain.Domain hg
      · rw [if_neg hany]
        simp
    have hnd1 : (groups1.map apexDomain.Domain).Nodup := by
      rw [hkeys1]
      by_cases hany : st.1.any (fun g => g.Domain == a)
      · rw [if_pos hany]
        exact h2
      · rw [if_neg hany]
        have hnot : a ∉ st.1.map apexDomain.Domain := by
          intro hmem
          obtain ⟨g, hg, hga⟩ := List.mem_map.mp hmem
          apply hany
          refine List.any_eq_true.mpr ⟨g, hg, ?_⟩
          simp [hga]
        simp [List.nodup_append, h2, hnot]
    have hcnt1 : ∀ g ∈ groups1, g.Count = g.Subdomains.length := by
      intro g hg
      rw [hg1] at hg
      by_cases hany : st.1.any (fun gg => gg.Domain == a)
      · rw [if_pos hany] at hg
        exact h1 g hg
      · rw [if_neg hany] at hg
        rcases List.mem_append.mp hg with h' | h'
        · exact h1 g h'
        · have hgeq : g = { Domain := a, IsApex := false, ResultID := 0,
                            Subdomains := [], Count := 0 } := by simpa using h'
          rw [hgeq]
          rfl
    have hfilter1 : ∀ g ∈ groups1, g.Count = keyCountFilter pre g.Domain := by
      intro g hg
      rw [hg1] at hg
      by_cases hany : st.1.any (fun gg => gg.Domain == a)
      · rw [if_pos hany] at hg
        exact h3 g hg
      · rw [if_neg hany] at hg
        rcases List.mem_append.mp hg with h' | h'
        · exact h3 g h'
        · have hgeq : g = { Domain := a, IsApex := false, ResultID := 0,
                            Subdomains := [], Count := 0 } := by simpa using h'
          have hnot : a ∉ st.1.map apexDomain.Domain := by
            intro hmem
            obtain ⟨gg, hgg, hgga⟩ := List.mem_map.mp hmem
            apply hany
            refine List.any_eq_true.mpr ⟨gg, hgg, ?_⟩
            simp [hgga]
          have hzero : keyCountFilter pre a = 0 := by
            simp only [keyCountFilter, List.length_eq_zero]
            rw [List.filter_eq_nil_iff]
            intro r' hr'
            simp only [beq_iff_eq, Option.some.injEq]
            intro hk'
            exact hnot (h0 r' hr' a hk')
          rw [hgeq]
          simp [hzero]
    have hsum1 : (groups1.map apexDomain.Count).sum = processedCount pre := by
      rw [hg1]
      by_cases hany : st.1.any (fun gg => gg.Domain == a)
      · rw [if_pos hany]
        exact h5
      · rw [if_neg hany]
        simpa using h5
    refine ⟨?_, ?_, ?_, ?_, ?_⟩
    · intro r' hr' a' ha'
      have hkeys2 : (groups1.map upd).map apexDomain.Domain =
          groups1.map apexDomain.Domain := map_key_of_pointwise _ upd hupd_dom groups1
      rcases List.mem_append.mp hr' with h' | h'
      · have := h0 r' h' a' ha'
        rw [hkeys2, hkeys1]
        by_cases hany : st.1.any (fun g => g.Domain == a)
        · rw [if_pos hany]; exact this
        · rw [if_neg hany]
          simp only [List.mem_append]
          exact Or.inl this
      · have : r' = r := by simpa using h'
        rw [this, hk] at ha'
        have haa : a' = a := by cases ha'; rfl
        rw [hkeys2, haa]
        exact hmem_a
    · rw [map_key_of_pointwise _ upd hupd_dom groups1]
      exact hnd1
    · intro g' hg'
      obtain ⟨g, hg, rfl⟩ := List.mem_map.mp hg'
      by_cases hga : g.Domain = a
      · rw [hupd_cnt g hga, hupd_sub g hga]
        simp [hcnt1 g hg]
      · rw [hupd_miss g hga]
        exact hcnt1 g hg
    · intro g' hg'
      obtain ⟨g, hg, rfl⟩ := List.mem_map.mp hg'
      by_cases hga : g.Domain = a
      · have hdom : (upd g).Domain = g.Domain := hupd_dom g
        rw [hupd_cnt g hga, hdom, hga]
        have hone : ([r].filter (fun r' => apexKeyOf r' == some a)) = [r] := by
          simp [List.filter, hk]
        rw [hfilter1 g hg, hga]
        simp [keyCountFilter, List.filter_append, hone]
      · rw [hupd_miss g hga]
        have hzero : ([r].filter (fun r' => apexKeyOf r' == some g.Domain)) = [] := by
          rw [List.filter_eq_nil_iff]
          intro r' hr'
          have hrr : r' = r := by simpa using hr'
          rw [hrr, hk]
          simp only [beq_iff_eq, Option.some.injEq]
          exact fun hcon => hga hcon.symm
        rw [hfilter1 g hg]
        simp [keyCountFilter, List.filter_append, hzero]
    · have hstep := sum_cnt_map_upd apexDomain.Domain apexDomain.Count upd a
        hupd_cnt hupd_miss groups1 hnd1 hmem_a
      have hone : ([r].filter (fun r' => (apexKeyOf r').isSome)) = [r] := by
        simp [List.filter, hk]
      simp only [processedCount, List.filter_append, hone, List.length_append,
        List.length_cons, List.length_nil]
      rw [hstep, hsum1]
      simp [processedCount]

theorem domainGroupsFold_inv (results : List Result) :
    DomainInv results (domainGroupsFold results) := by
  induction results using List.reverseRecOn with
  | nil => exact DomainInv_nil
  | append_singleton xs x ih =>
    have : domainGroupsFold (xs ++ [x]) = domainFoldStep (domainGroupsFold xs) x := by
      simp [domainGroupsFold, List.foldl_append]
    rw [this]
    exact DomainInv_step xs (domainGroupsFold xs) x ih

/-! ### Invariants of the IP aggregation fold -/

/-- A lower bound below a strictly smaller new minimum stays a lower bound. -/
theorem strLt_false_up {a b t : String} (hab : strLt a b = true)
    (hat : strLt a t = false) : strLt b t = false := by
  by_contra h
  have hbt : strLt b t = true := by
    cases hx : strLt b t with
    | false => exact absurd hx h
    | true => rfl
  exact absurd (strLt_trans hab hbt) (by simp [hat])

theorem resultHostname_none_cases {r : Result} (h : resultHostname r = none) :
    goUrlParse r.URL = none ∨ ∃ u, goUrlParse r.URL = some u ∧ u.hostname = "" := by
  simp only [resultHostname] at h
  cases hu : goUrlParse r.URL with
  | none => exact Or.inl rfl
  | some u =>
    rw [hu] at h
    simp only at h
    by_cases hh : u.hostname = ""
    · exact Or.inr ⟨u, rfl, hh⟩
    · rw [if_neg hh] at h
      cases h

theorem ipFoldStep_skip (m : List ipEntry) (r : Result)
    (h : r.IPAddress = "" ∨ resultHostname r = none) : ipFoldStep m r = m := by
  simp only [ipFoldStep]
  rcases h with h | h
  · rw [if_pos h]
  · by_cases hip : r.IPAddress = ""
    · rw [if_pos hip]
    · rw [if_neg hip]
      rcases resultHostname_none_cases h with h' | ⟨u, hu, hh⟩
      · rw [h']
      · rw [hu]
        simp [hh]

theorem ipContributes_skip (r : Result)
    (h : r.IPAddress = "" ∨ resultHostname r = none) :
    ∀ ip, ipContributes ip r = false := by
  intro ip
  rcases h with h | h <;> simp [ipContributes, h]

theorem fmtsFor_append (ip : String) (pre : List Result) (r : Result) :
    fmtsFor ip (pre ++ [r]) =
      fmtsFor ip pre ++
        (if ipContributes ip r then [r.ProbedAt.format] else []) := by
  simp only [fmtsFor, List.filter_append, List.map_append]
  congr 1
  by_cases h : ipContributes ip r = true
  · simp [List.filter_cons, h]
  · simp [List.filter_cons, h]

theorem ipContributes_active {r : Result} {u : GoURL}
    (hu : goUrlParse r.URL = some u) (hip : ¬r.IPAddress = "")
    (hh : ¬u.hostname = "") :
    ∀ ip, ipContributes ip r = (r.IPAddress == ip) := by
  intro ip
  have hrh : resultHostname r = some u.hostname := by
    simp [resultHostname, hu, hh]
  simp [ipContributes, hip, hrh]

theorem ipFoldStep_active (m : List ipEntry) (r : Result) (u : GoURL)
    (hu : goUrlParse r.URL = some u) (hip : ¬r.IPAddress = "")
    (hh : ¬u.hostname = "") :
    ipFoldStep m r =
      ((if m.any (fun e => e.IPAddress == r.IPAddress) then m
        else m ++ [{ IPAddress := r.IPAddress, DomainCount := 0,
                     FirstSeen := r.ProbedAt.format, LastSeen := r.ProbedAt.format,
                     SampleDomain := u.hostname, ResultID := r.ID,
                     Domains := [] }]).map
        (fun e =>
          if e.IPAddress == r.IPAddress then
            let e1 := { e with DomainCount := e.DomainCount + 1,
                               Domains := e.Domains ++
                                 [{ Domain := u.hostname, ResultID := r.ID,
                                    URL := r.URL, Protocol := u.Scheme,
                                    Port := defaultedPort u.Scheme u.port }] }
            let e2 := if strLt r.ProbedAt.format e1.FirstSeen then
                        { e1 with FirstSeen := r.ProbedAt.format } else e1
            if strLt e2.LastSeen r.ProbedAt.format then
              { e2 with LastSeen := r.ProbedAt.format } else e2
          else e)) := by
  simp only [ipFoldStep, hu]
  rw [if_neg hip, if_neg hh]

theorem IPInv_nil : IPInv [] [] := by
  constructor <;> simp

theorem IPInv_step (pre : List Result) (m : List ipEntry) (r : Result)
    (h : IPInv pre m) : IPInv (pre ++ [r]) (ipFoldStep m r) := by
  obtain ⟨hA, hB⟩ := h
  by_cases hskip : r.IPAddress = "" ∨ resultHostname r = none
  · rw [ipFoldStep_skip m r hskip]
    have hc := ipContributes_skip r hskip
    constructor
    · intro r' hr' hcr'
      rcases List.mem_append.mp hr' with h' | h'
      · exact hA r' h' hcr'
      · have hrr : r' = r := by simpa using h'
        rw [hrr, hc r.IPAddress] at hcr'
        cases hcr'
    · intro e he
      rw [fmtsFor_append, hc e.IPAddress]
      simpa using hB e he
  · push_neg at hskip
    obtain ⟨hip, hrh⟩ := hskip
    have hrhs : ∃ u, goUrlParse r.URL = some u ∧ u.hostname ≠ "" := by
      simp only [resultHostname] at hrh
      cases hu : goUrlParse r.URL with
      | none => rw [hu] at hrh; simp at hrh
      | some u =>
        rw [hu] at hrh
        simp only at hrh
        by_cases hh : u.hostname = ""
        · rw [if_pos hh] at hrh; simp at hrh
        · exact ⟨u, rfl, hh⟩
    obtain ⟨u, hu, hh⟩ := hrhs
    have hcontr := ipContributes_active hu hip hh
    rw [ipFoldStep_active m r u hu hip hh]
    set cur := r.ProbedAt.format with hcur
    set init : ipEntry :=
      { IPAddress := r.IPAddress, DomainCount := 0, FirstSeen := cur,
        LastSeen := cur, SampleDomain := u.hostname, ResultID := r.ID,
        Domains := [] } with hinit
    set updIp : ipEntry → ipEntry :=
      (fun e =>
        if e.IPAddress == r.IPAddress then
          let e1 := { e with DomainCount := e.DomainCount + 1,
                             Domains := e.Domains ++
                               [{ Domain := u.hostname, ResultID := r.ID,
                                  URL := r.URL, Protocol := u.Scheme,
                                  Port := defaultedPort u.Scheme u.port }] }
          let e2 := if strLt cur e1.FirstSeen then { e1 with FirstSeen := cur } else e1
          if strLt e2.LastSeen cur then { e2 with LastSeen := cur } else e2
        else e) with hupdIp
    have hupd_ip : ∀ e, (updIp e).IPAddress = e.IPAddress := by
      intro e
      rw [hupdIp]
      dsimp only
      split
      · split <;> split <;> rfl
      · rfl
    have hupd_first : ∀ e, e.IPAddress = r.IPAddress →
        (updIp e).FirstSeen = (if strLt cur e.FirstSeen then cur else e.FirstSeen) := by
      intro e hem
      rw [hupdIp]
      dsimp only
      rw [if_pos (by simp [hem])]
      split <;> split <;> rfl
    have hupd_last : ∀ e, e.IPAddress = r.IPAddress →
        (updIp e).LastSeen = (if strLt e.LastSeen cur then cur else e.LastSeen) := by
      intro e hem
      rw [hupdIp]
      dsimp only
      rw [if_pos (by simp [hem])]
      by_cases h1 : strLt cur e.FirstSeen
      · rw [if_pos h1]
        split <;> rfl
      · rw [if_neg h1]
        split <;> rfl
    have hupd_miss : ∀ e, e.IPAddress ≠ r.IPAddress → updIp e = e := by
      intro e hem
      rw [hupdIp]
      dsimp only
      rw [if_neg (by simpa using hem)]
    set m1 := (if m.any (fun e => e.IPAddress == r.IPAddress) then m else m ++ [init])
      with hm1
    have hm1_mem : ∀ x ∈ m1, x ∈ m ∨ x = init := by
      intro x hx
      rw [hm1] at hx
      by_cases hany : m.any (fun e => e.IPAddress == r.IPAddress)
      · rw [if_pos hany] at hx; exact Or.inl hx
      · rw [if_neg hany] at hx
        rcases List.mem_append.mp hx with h' | h'
        · exact Or.inl h'
        · exact Or.inr (by simpa using h')
    have hbound : ∀ e ∈ m, e.IPAddress = r.IPAddress →
        (∀ t ∈ fmtsFor e.IPAddress (pre ++ [r]),
          strLe (updIp e).FirstSeen t = true ∧ strLe t (updIp e).LastSeen = true) := by
      intro e he hematch t ht
      have hbnds := (hB e he).2.2
      rw [hematch] at hbnds
      rw [fmtsFor_append, hematch, hcontr r.IPAddress] at ht
      simp only [beq_self_eq_true, if_pos] at ht
      rw [hupd_first e hematch, hupd_last e hematch]
      rcases List.mem_append.mp ht with hold | hnew
      · obtain ⟨hf, hl⟩ := hbnds t hold
        constructor
        · by_cases hc1 : strLt cur e.FirstSeen
          · rw [if_pos hc1]
            simp only [strLe] at hf ⊢
            have := strLt_false_of_lt_of_not_lt hc1 (by simpa using hf)
            simp [this]
          · rw [if_neg hc1]
            exact hf
        · by_cases hc2 : strLt e.LastSeen cur
          · rw [if_pos hc2]
            simp only [strLe] at hl ⊢
            have := strLt_false_up hc2 (by simpa using hl)
            simp [this]
          · rw [if_neg hc2]
            exact hl
      · have htcur : t = cur := by simpa using hnew
        subst htcur
        constructor
        · by_cases hc1 : strLt cur e.FirstSeen
          · rw [if_pos hc1]
            exact strLe_refl cur
          · rw [if_neg hc1]
            simp [strLe, hc1]
        · by_cases hc2 : strLt e.LastSeen cur
          · rw [if_pos hc2]
            exact strLe_refl cur
          · rw [if_neg hc2]
            simp [strLe, hc2]
    have hfr : fmtsFor r.IPAddress (pre ++ [r]) = fmtsFor r.IPAddress pre ++ [cur] := by
      rw [fmtsFor_append, hcontr r.IPAddress]
      simp
    have hfother : ∀ ip, ip ≠ r.IPAddress →
        fmtsFor ip (pre ++ [r]) = fmtsFor ip pre := by
      intro ip hne
      rw [fmtsFor_append, hcontr ip]
      have hb : (r.IPAddress == ip) = false := by
        simp only [beq_eq_false_iff_ne, ne_eq]
        exact fun hcon => hne hcon.symm
      simp [hb]
    constructor
    · intro r' hr' hcr'
      rcases List.mem_append.mp hr' with h' | h'
      · obtain ⟨e, he, hekey⟩ := hA r' h' hcr'
        refine ⟨updIp e, ?_, by rw [hupd_ip e]; exact hekey⟩
        apply List.mem_map_of_mem
        rw [hm1]
        by_cases hany : m.any (fun x => x.IPAddress == r.IPAddress)
        · rw [if_pos hany]; exact he
        · rw [if_neg hany]; exact List.mem_append.mpr (Or.inl he)
      · have hrr : r' = r := by simpa using h'
        rw [hrr]
        by_cases hany : m.any (fun x => x.IPAddress == r.IPAddress)
        · obtain ⟨e, he, hekey⟩ := List.any_eq_true.mp hany
          have hekey' : e.IPAddress = r.IPAddress := by simpa using hekey
          refine ⟨updIp e, ?_, by rw [hupd_ip e]; exact hekey'⟩
          apply List.mem_map_of_mem
          rw [hm1, if_pos hany]
          exact he
        · refine ⟨updIp init, ?_, by rw [hupd_ip init]⟩
          apply List.mem_map_of_mem
          rw [hm1, if_neg hany]
          simp
    · intro e' he'
      obtain ⟨x, hx, rfl⟩ := List.mem_map.mp he'
      by_cases hany : m.any (fun e => e.IPAddress == r.IPAddress)
      · have hxm : x ∈ m := by rw [hm1, if_pos hany] at hx; exact hx
        by_cases hxmatch : x.IPAddress = r.IPAddress
        · obtain ⟨hfmem, hlmem, _⟩ := hB x hxm
          refine ⟨?_, ?_, ?_⟩
          · rw [hupd_ip x, hxmatch, hfr, hupd_first x hxmatch]
            by_cases hc1 : strLt cur x.FirstSeen
            · rw [if_pos hc1]; simp
            · rw [if_neg hc1]
              exact List.mem_append.mpr (Or.inl (hxmatch ▸ hfmem))
          · rw [hupd_ip x, hxmatch, hfr, hupd_last x hxmatch]
            by_cases hc2 : strLt x.LastSeen cur
            · rw [if_pos hc2]; simp
            · rw [if_neg hc2]
              exact List.mem_append.mpr (Or.inl (hxmatch ▸ hlmem))
          · rw [hupd_ip x]
            exact hbound x hxm hxmatch
        · rw [hupd_miss x hxmatch, hfother x.IPAddress hxmatch]
          exact hB x hxm
      · rw [hm1, if_neg hany] at hx
        rcases List.mem_append.mp hx with hxm | hxinit
        · have hxmatch : x.IPAddress ≠ r.IPAddress := by
            intro hcon
            exact hany (List.any_eq_true.mpr ⟨x, hxm, by simp [hcon]⟩)
          rw [hupd_miss x hxmatch, hfother x.IPAddress hxmatch]
          exact hB x hxm
        · have hxi : x = init := by simpa using hxinit
          subst hxi
          have hinitmatch : init.IPAddress = r.IPAddress := rfl
          have hempty : fmtsFor r.IPAddress pre = [] := by
            unfold fmtsFor
            have hnone : pre.filter (ipContributes r.IPAddress) = [] := by
              rw [List.filter_eq_nil_iff]
              intro r' hr' hc'
              have hipq : r'.IPAddress = r.IPAddress := by
                simp only [ipContributes, Bool.and_eq_true, beq_iff_eq] at hc'
                exact hc'.1.2
              have hc'' : ipContributes r'.IPAddress r' = true := by
                rw [hipq]; exact hc'
              obtain ⟨e, he, hekey⟩ := hA r' hr' hc''
              apply hany
              exact List.any_eq_true.mpr ⟨e, he, by simp [hekey, hipq]⟩
            rw [hnone]
            rfl
          have hfinit : (updIp init).FirstSeen = cur := by
            rw [hupd_first init hinitmatch]
            have : init.FirstSeen = cur := rfl
            rw [this]
            split <;> rfl
          have hlinit : (updIp init).LastSeen = cur := by
            rw [hupd_last init hinitmatch]
            have : init.LastSeen = cur := rfl
            rw [this]
            split <;> rfl
          rw [hupd_ip init, hinitmatch, hfr, hempty, hfinit, hlinit]
          refine ⟨by simp, by simp, ?_⟩
          intro t ht
          have htc : t = cur := by simpa using ht
          subst htc
          exact ⟨strLe_refl cur, strLe_refl cur⟩

theorem ipGroupsFold_rows_inv (rows : List Result) :
    IPInv rows (rows.foldl ipFoldStep []) := by
  induction rows using List.reverseRecOn with
  | nil => exact IPInv_nil
  | append_singleton xs x ih =>
    rw [List.foldl_append]
    exact IPInv_step xs (xs.foldl ipFoldStep []) x ih

/-- The record-set filter applied by the IP aggregator's query does not
change which records contribute to a group. -/
theorem fmtsFor_ipRows (ip : String) (results : List Result) :
    fmtsFor ip (ipRows results) = fmtsFor ip results := by
  unfold fmtsFor ipRows
  rw [List.filter_filter]
  congr 1
  apply List.filter_congr
  intro r _
  cases h : (r.IPAddress == "") with
  | true => simp [ipContributes, h]
  | false => simp [ipContributes, h]

theorem ipGroupsFold_inv (results : List Result) :
    IPInv (ipRows results) (ipGroupsFold results) :=
  ipGroupsFold_rows_inv (ipRows results)

/-- Membership in the sorted output implies membership in the folded map,
for any map iteration order. -/
theorem mem_of_mem_apexDomains {results : List Result} {iter : List apexDomain}
    {g : apexDomain} (hperm : iter.Perm (domainGroupsFold results).1)
    (hg : g ∈ (calculateDomainStatistics iter results).ApexDomains) :
    g ∈ (domainGroupsFold results).1 := by
  have h1 : g ∈ iter :=
    (goBubbleSortDesc_perm (fun g => g.Count) iter).mem_iff.mp
      (by simpa [calculateDomainStatistics] using hg)
  exact hperm.mem_iff.mp h1

/-- C1 (amended): the output of `calculateDomainStatistics` is, for every map
iteration order, a permutation of the folded apex groups, sorted by count
descending, and the sort is stable with respect to the iteration order:
equal-count groups keep the order of the map-to-slice conversion.  Because
that conversion follows Go's unspecified map iteration order, equal-count tie
order — and hence run-to-run ordering determinism — is not guaranteed (see
the counterexample). -/
theorem C1_sorted_stable (results : List Result) (iter : List apexDomain)
    (hperm : iter.Perm (domainGroupsFold results).1) :
    ((calculateDomainStatistics iter results).ApexDomains).Perm
        (domainGroupsFold results).1 ∧
    List.Pairwise (fun x y => y.Count ≤ x.Count)
        (calculateDomainStatistics iter results).ApexDomains ∧
    (∀ c, (calculateDomainStatistics iter results).ApexDomains.filter
        (fun g => g.Count == c) = iter.filter (fun g => g.Count == c)) := by
  refine ⟨?_, ?_, ?_⟩
  · exact (goBubbleSortDesc_perm (fun g => g.Count) iter).trans hperm
  · exact goBubbleSortDesc_sorted (fun g => g.Count) iter
  · intro c
    exact goBubbleSortDesc_filter (fun g => g.Count) c iter

/-- Witness for C1 (amended) at the two-record set, with the iteration order
equal to insertion order. -/
theorem C1_sorted_stable_witness :
    ((calculateDomainStatistics (domainGroupsFold c1Records).1 c1Records).ApexDomains).Perm
        (domainGroupsFold c1Records).1 ∧
    List.Pairwise (fun x y => y.Count ≤ x.Count)
        (calculateDomainStatistics (domainGroupsFold c1Records).1 c1Records).ApexDomains ∧
    (∀ c, (calculateDomainStatistics (domainGroupsFold c1Records).1 c1Records).ApexDomains.filter
        (fun g => g.Count == c) =
        (domainGroupsFold c1Records).1.filter (fun g => g.Count == c)) :=
  C1_sorted_stable c1Records (domainGroupsFold c1Records).1 (List.Perm.refl _)

/-- C1 (counterexample): two runs over the same two-record set whose
map-to-slice conversions enumerate the same map contents in different
(both legitimate) orders produce different group orderings, and the second
run lists the two equal-count groups against their first-observed order
(`a.com` before `b.com`).  So the aggregation is not deterministic across
runs and ties need not follow insertion order. -/
theorem C1_counterexample :
    ((domainGroupsFold c1Records).1.reverse).Perm (domainGroupsFold c1Records).1 ∧
    (domainGroupsFold c1Records).1.map apexDomain.Domain = ["a.com", "b.com"] ∧
    (calculateDomainStatistics (domainGroupsFold c1Records).1 c1Records).ApexDomains.map
        apexDomain.Domain = ["a.com", "b.com"] ∧
    (calculateDomainStatistics ((domainGroupsFold c1Records).1.reverse) c1Records).ApexDomains.map
        apexDomain.Domain = ["b.com", "a.com"] ∧
    calculateDomainStatistics (domainGroupsFold c1Records).1 c1Records ≠
      calculateDomainStatistics ((domainGroupsFold c1Records).1.reverse) c1Records := by
  refine ⟨by decide, by decide, by decide, by decide, by decide⟩

/-- C3: every apex group of the output satisfies `Count = len(Subdomains)`
(apex self-observations included) and `Count` equals the number of probe
records the aggregator filed under the group's apex domain. -/
theorem C3_count_invariant (results : List Result) (iter : List apexDomain)
    (hperm : iter.Perm (domainGroupsFold results).1) :
    ∀ g ∈ (calculateDomainStatistics iter results).ApexDomains,
      g.Count = g.Subdomains.length ∧ g.Count = keyCountFilter results g.Domain := by
  intro g hg
  have hmem : g ∈ (domainGroupsFold results).1 := mem_of_mem_apexDomains hperm hg
  obtain ⟨_, _, h1, h3, _⟩ := domainGroupsFold_inv results
  exact ⟨h1 g hmem, h3 g hmem⟩

/-- Witness for C3 at the two-record set's `a.com` group. -/
theorem C3_count_invariant_witness :
    c3Group.Count = c3Group.Subdomains.length ∧
    c3Group.Count = keyCountFilter c1Records c3Group.Domain :=
  C3_count_invariant c1Records (domainGroupsFold c1Records).1 (List.Perm.refl _)
    c3Group (by decide)

/-- C4: the apex classifier's hostname-level mapping on the spec's five
hostnames, the same mapping through `extractApexDomain` on full URLs, and the
fallback contract: when the public-suffix lookup fails, the result is the
last two dot-separated labels, or the hostname unchanged with fewer than two
labels. -/
theorem C4_apex_classification :
    apexFromHostname "www.example.co.uk" = "example.co.uk" ∧
    apexFromHostname "example.co.uk" = "example.co.uk" ∧
    apexFromHostname "sub.example.com" = "example.com" ∧
    apexFromHostname "example.com" = "example.com" ∧
    apexFromHostname "localhost" = "localhost" ∧
    extractApexDomain "https://www.example.co.uk" = "example.co.uk" ∧
    extractApexDomain "https://localhost" = "localhost" ∧
    (∀ h : String, effectiveTLDPlusOne h = none →
      apexFromHostname h =
        (if 2 ≤ (splitOnDot h).length
         then joinDot ((splitOnDot h).drop ((splitOnDot h).length - 2))
         else h)) := by
  refine ⟨by decide, by decide, by decide, by decide, by decide, by decide, by decide, ?_⟩
  intro h hfail
  simp [apexFromHostname, hfail]

/-- Witness for C4's fallback clause at `co.uk` (a bare public suffix, on
which the eTLD+1 lookup fails). -/
theorem C4_apex_classification_witness :
    effectiveTLDPlusOne "co.uk" = none ∧
    apexFromHostname "co.uk" =
      (if 2 ≤ (splitOnDot "co.uk").length
       then joinDot ((splitOnDot "co.uk").drop ((splitOnDot "co.uk").length - 2))
       else "co.uk") :=
  ⟨by decide, C4_apex_classification.2.2.2.2.2.2.2 "co.uk" (by decide)⟩

/-- C10: `total_domains` is the number of records read from the store,
skipped records included; the apex-group counts sum only to the processed
records, so `total_domains` can strictly exceed that sum (witnessed by a
record set with one malformed URL). -/
theorem C10_total_domains (results : List Result) (iter : List apexDomain)
    (hperm : iter.Perm (domainGroupsFold results).1) :
    (calculateDomainStatistics iter results).TotalDomains = results.length ∧
    ((calculateDomainStatistics iter results).ApexDomains.map apexDomain.Count).sum =
      processedCount results ∧
    processedCount results ≤ results.length ∧
    (calculateDomainStatistics (domainGroupsFold c10Records).1 c10Records).TotalDomains >
      ((calculateDomainStatistics (domainGroupsFold c10Records).1 c10Records).ApexDomains.map
        apexDomain.Count).sum := by
  refine ⟨rfl, ?_, ?_, by decide⟩
  · have hp : ((calculateDomainStatistics iter results).ApexDomains.map apexDomain.Count).Perm
        ((domainGroupsFold results).1.map apexDomain.Count) := by
      have hq := ((goBubbleSortDesc_perm (fun g : apexDomain => g.Count) iter).trans hperm).map
        apexDomain.Count
      simpa [calculateDomainStatistics] using hq
    rw [hp.sum_eq]
    exact (domainGroupsFold_inv results).2.2.2.2
  · exact List.length_filter_le _ results

/-- Witness for C10 at the mixed two-record set, with iteration order equal
to insertion order. -/
theorem C10_total_domains_witness :
    (calculateDomainStatistics (domainGroupsFold c10Records).1 c10Records).TotalDomains =
      c10Records.length ∧
    ((calculateDomainStatistics (domainGroupsFold c10Records).1 c10Records).ApexDomains.map
        apexDomain.Count).sum = processedCount c10Records ∧
    processedCount c10Records ≤ c10Records.length ∧
    (calculateDomainStatistics (domainGroupsFold c10Records).1 c10Records).TotalDomains >
      ((calculateDomainStatistics (domainGroupsFold c10Records).1 c10Records).ApexDomains.map
        apexDomain.Count).sum :=
  C10_total_domains c10Records (domainGroupsFold c10Records).1 (List.Perm.refl _)

/-- C5: for every record set and IP group of the output, first-seen and
last-seen are respectively the minimum and maximum — under the code's
byte-lexicographic comparison of `YYYY-MM-DD HH:MM:SS` strings — of the
formatted timestamps of the records folded into the group (both attained and
bounding), so first-seen ≤ last-seen; and the spec's concrete example for IP
`1.2.3.4` produces first-seen `2024-01-01 09:00:00`, last-seen
`2024-01-03 11:00:00`. -/
theorem C5_first_last_seen (results : List Result) (iter : List ipEntry)
    (hperm : iter.Perm (ipGroupsFold results)) :
    (∀ e ∈ (calculateIPStatistics iter results).IPList,
      e.FirstSeen ∈ fmtsFor e.IPAddress results ∧
      e.LastSeen ∈ fmtsFor e.IPAddress results ∧
      (∀ t ∈ fmtsFor e.IPAddress results,
        strLe e.FirstSeen t = true ∧ strLe t e.LastSeen = true) ∧
      strLe e.FirstSeen e.LastSeen = true) ∧
    (calculateIPStatistics (ipGroupsFold c5Records) c5Records).IPList.map
        (fun e => (e.IPAddress, e.FirstSeen, e.LastSeen)) =
      [("1.2.3.4", "2024-01-01 09:00:00", "2024-01-03 11:00:00")] := by
  constructor
  · intro e he
    have hmem : e ∈ ipGroupsFold results := by
      have h1 : e ∈ iter :=
        (goBubbleSortDesc_perm (fun x => x.DomainCount) iter).mem_iff.mp
          (by simpa [calculateIPStatistics] using he)
      exact hperm.mem_iff.mp h1
    obtain ⟨_, hB⟩ := ipGroupsFold_inv results
    obtain ⟨hf, hl, hb⟩ := hB e hmem
    rw [fmtsFor_ipRows] at hf hl
    have hb' : ∀ t ∈ fmtsFor e.IPAddress results,
        strLe e.FirstSeen t = true ∧ strLe t e.LastSeen = true := by
      intro t ht
      exact hb t (by rwa [fmtsFor_ipRows])
    exact ⟨hf, hl, hb', (hb' e.FirstSeen hf).2⟩
  · decide

/-- Witness for C5 at the three-record example and its group. -/
theorem C5_first_last_seen_witness :
    c5Entry.FirstSeen ∈ fmtsFor c5Entry.IPAddress c5Records ∧
    strLe c5Entry.FirstSeen "2024-01-02 10:00:00" = true ∧
    strLe c5Entry.FirstSeen c5Entry.LastSeen = true :=
  have h := (C5_first_last_seen c5Records (ipGroupsFold c5Records)
    (List.Perm.refl _)).1 c5Entry (by decide)
  ⟨h.1, (h.2.2.1 "2024-01-02 10:00:00" (by decide)).1, h.2.2.2⟩

/-- C8: a record whose URL does not parse or yields an empty hostname is
excluded from both aggregators' group outputs — deleting it from the record
set leaves both folded group lists unchanged, so the surrounding records are
still processed — and the spec's example `"::::not a url"` is such a URL. -/
theorem C8_skip_malformed (l1 l2 : List Result) (r : Result)
    (h : resultHostname r = none) :
    domainGroupsFold (l1 ++ r :: l2) = domainGroupsFold (l1 ++ l2) ∧
    ipGroupsFold (l1 ++ r :: l2) = ipGroupsFold (l1 ++ l2) ∧
    resultHostname { ID := 99, URL := "::::not a url", IPAddress := "9.9.9.9",
                     ProbedAt := ⟨2024, 1, 1, 0, 0, 0⟩ } = none := by
  have hkey : apexKeyOf r = none := by
    rcases resultHostname_none_cases h with h' | ⟨u, hu, hh⟩
    · simp [apexKeyOf, h']
    · simp [apexKeyOf, hu, hh]
  refine ⟨?_, ?_, by decide⟩
  · unfold domainGroupsFold
    rw [List.foldl_append, List.foldl_append, List.foldl_cons,
      domainFoldStep_skip _ r hkey]
  · unfold ipGroupsFold
    by_cases hip : r.IPAddress = ""
    · have hdrop : ipRows (l1 ++ r :: l2) = ipRows l1 ++ ipRows l2 := by
        simp [ipRows, List.filter_append, List.filter_cons, hip]
      rw [hdrop]
      simp [ipRows, List.filter_append]
    · have hkeep : ipRows (l1 ++ r :: l2) = ipRows l1 ++ r :: ipRows l2 := by
        simp [ipRows, List.filter_append, List.filter_cons, hip]
      rw [hkeep]
      rw [List.foldl_append, List.foldl_cons, ipFoldStep_skip _ r (Or.inr h)]
      simp [ipRows, List.filter_append]

/-- Witness for C8: the malformed record sits between two well-formed ones
and drops out of both aggregations. -/
theorem C8_skip_malformed_witness :
    domainGroupsFold
        ([{ ID := 1, URL := "http://a.com", IPAddress := "1.2.3.4",
            ProbedAt := ⟨2024, 1, 1, 0, 0, 0⟩ }] ++
          { ID := 99, URL := "::::not a url", IPAddress := "9.9.9.9",
            ProbedAt := ⟨2024, 1, 1, 0, 0, 0⟩ } ::
          [{ ID := 2, URL := "http://b.com", IPAddress := "5.6.7.8",
             ProbedAt := ⟨2024, 1, 1, 0, 0, 0⟩ }]) =
      domainGroupsFold
        ([{ ID := 1, URL := "http://a.com", IPAddress := "1.2.3.4",
            ProbedAt := ⟨2024, 1, 1, 0, 0, 0⟩ }] ++
          [{ ID := 2, URL := "http://b.com", IPAddress := "5.6.7.8",
             ProbedAt := ⟨2024, 1, 1, 0, 0, 0⟩ }]) ∧
    ipGroupsFold
        ([{ ID := 1, URL := "http://a.com", IPAddress := "1.2.3.4",
            ProbedAt := ⟨2024, 1, 1, 0, 0, 0⟩ }] ++
          { ID := 99, URL := "::::not a url", IPAddress := "9.9.9.9",
            ProbedAt := ⟨2024, 1, 1, 0, 0, 0⟩ } ::
          [{ ID := 2, URL := "http://b.com", IPAddress := "5.6.7.8",
             ProbedAt := ⟨2024, 1, 1, 0, 0, 0⟩ }]) =
      ipGroupsFold
        ([{ ID := 1, URL := "http://a.com", IPAddress := "1.2.3.4",
            ProbedAt := ⟨2024, 1, 1, 0, 0, 0⟩ }] ++
          [{ ID := 2, URL := "http://b.com", IPAddress := "5.6.7.8",
             ProbedAt := ⟨2024, 1, 1, 0, 0, 0⟩ }]) ∧
    resultHostname { ID := 99, URL := "::::not a url", IPAddress := "9.9.9.9",
                     ProbedAt := ⟨2024, 1, 1, 0, 0, 0⟩ } = none :=
  C8_skip_malformed
    [{ ID := 1, URL := "http://a.com", IPAddress := "1.2.3.4",
       ProbedAt := ⟨2024, 1, 1, 0, 0, 0⟩ }]
    [{ ID := 2, URL := "http://b.com", IPAddress := "5.6.7.8",
       ProbedAt := ⟨2024, 1, 1, 0, 0, 0⟩ }]
    { ID := 99, URL := "::::not a url", IPAddress := "9.9.9.9",
      ProbedAt := ⟨2024, 1, 1, 0, 0, 0⟩ }
    (by decide)

/-! ### Resolver claims (C2, C7) -/

theorem find?_append_of_none {α : Type} (p : α → Bool) {l1 : List α}
    (l2 : List α) (h : l1.find? p = none) :
    (l1 ++ l2).find? p = l2.find? p := by
  induction l1 with
  | nil => rfl
  | cons x t ih =>
    cases hx : p x with
    | true => simp [List.find?, hx] at h
    | false =>
      simp only [List.find?, hx] at h
      simp only [List.cons_append, List.find?, hx]
      exact ih h

/-- The resolver's cached path: a record that is found and non-trivially
populated short-circuits enrichment entirely. -/
theorem ipInfoIntelPhase_cached (st : IPStore) (env : fallbackEnv)
    (now : GoTime) (ip : String) (rec : IPInfo)
    (hfind : st.ipInfos.find? (fun x => x.IPAddress == ip) = some rec)
    (hnontriv : (rec.Organization == "" && rec.ISP == "" && rec.Country == "") = false) :
    ipInfoIntelPhase st env now ip = (st, ⟨0, 0⟩, some rec) := by
  simp [ipInfoIntelPhase, hfind, hnontriv]

/-- C2: for a never-before-seen, syntactically valid IP whose geolocation
lookup succeeds with a non-trivially-populated response, the first fallback
run persists exactly one record (and makes its one geolocation call); the
second run leaves the store untouched and makes zero provider calls, seeing
the stored non-empty record; and `storeFallbackIPData` never overwrites an
existing record for the IP. -/
theorem C2_resolver_at_most_once (st : IPStore) (env : fallbackEnv)
    (now now2 : GoTime) (ip : String) (d : IPAPIResponse)
    (habsent : st.ipInfos.any (fun x => x.IPAddress == ip) = false)
    (hvalid : isValidIPAddress ip = true)
    (hgeo : env.geo = some d)
    (hnt : d.Org ≠ "" ∨ d.ISP ≠ "" ∨ d.Country ≠ "") :
    ((ipInfoIntelPhase st env now ip).1.ipInfos.filter
        (fun x => x.IPAddress == ip)).length = 1 ∧
    (ipInfoIntelPhase st env now ip).2.1.geoCalls = 1 ∧
    ipInfoIntelPhase (ipInfoIntelPhase st env now ip).1 env now2 ip =
      ((ipInfoIntelPhase st env now ip).1, ⟨0, 0⟩,
        (ipInfoIntelPhase st env now ip).1.ipInfos.find?
          (fun x => x.IPAddress == ip)) ∧
    (∀ (st' : IPStore) (now' : GoTime) (d' : IPAPIResponse) (ports' : List Int),
      st'.ipInfos.any (fun x => x.IPAddress == ip) = true →
      storeFallbackIPData st' now' ip d' ports' = st') := by
  have hall : ∀ x ∈ st.ipInfos, (x.IPAddress == ip) = false := by
    intro x hx
    cases hb : (x.IPAddress == ip) with
    | false => rfl
    | true =>
      have : st.ipInfos.any (fun x => x.IPAddress == ip) = true :=
        List.any_eq_true.mpr ⟨x, hx, hb⟩
      rw [habsent] at this
      cases this
  have hfind : st.ipInfos.find? (fun x => x.IPAddress == ip) = none :=
    List.find?_eq_none.mpr (fun x hx => by simp [hall x hx])
  have hfind2 : ∀ l2, (st.ipInfos ++ l2).find? (fun x => x.IPAddress == ip) =
      l2.find? (fun x => x.IPAddress == ip) :=
    fun l2 => find?_append_of_none _ l2 hfind
  have hr1 : ∃ ports ncal, ipInfoIntelPhase st env now ip =
      ({ st with ipInfos := st.ipInfos ++ [fallbackIPInfoRecord now ip d ports] },
       ⟨1, ncal⟩, some (fallbackIPInfoRecord now ip d ports)) := by
    by_cases hpc : (st.ipPorts.filter (fun p => p.IPAddress == ip)).isEmpty = true
    · cases hnaabu : env.naabu with
      | some ps =>
        exact ⟨ps, 1, by
          simp [ipInfoIntelPhase, hfind, hvalid, hgeo, hpc, hnaabu,
            storeFallbackIPData, habsent, hfind2, List.find?, fallbackIPInfoRecord]⟩
      | none =>
        exact ⟨[], 1, by
          simp [ipInfoIntelPhase, hfind, hvalid, hgeo, hpc, hnaabu,
            storeFallbackIPData, habsent, hfind2, List.find?, fallbackIPInfoRecord]⟩
    · exact ⟨[], 0, by
        simp [ipInfoIntelPhase, hfind, hvalid, hgeo, hpc,
          storeFallbackIPData, habsent, hfind2, List.find?, fallbackIPInfoRecord]⟩
  obtain ⟨ports, ncal, heq⟩ := hr1
  have hrecip : (fallbackIPInfoRecord now ip d ports).IPAddress = ip := rfl
  have hfilter_nil : st.ipInfos.filter (fun x => x.IPAddress == ip) = [] :=
    List.filter_eq_nil_iff.mpr (fun x hx => by simp [hall x hx])
  have hnontriv : ((fallbackIPInfoRecord now ip d ports).Organization == "" &&
      (fallbackIPInfoRecord now ip d ports).ISP == "" &&
      (fallbackIPInfoRecord now ip d ports).Country == "") = false := by
    show (d.Org == "" && d.ISP == "" && d.Country == "") = false
    rcases hnt with h | h | h
    · have hb : (d.Org == "") = false := beq_eq_false_iff_ne.mpr h
      simp [hb]
    · have hb : (d.ISP == "") = false := beq_eq_false_iff_ne.mpr h
      simp [hb]
    · have hb : (d.Country == "") = false := beq_eq_false_iff_ne.mpr h
      simp [hb]
  have hfindrec : ({ st with ipInfos := st.ipInfos ++
      [fallbackIPInfoRecord now ip d ports] } : IPStore).ipInfos.find?
        (fun x => x.IPAddress == ip) = some (fallbackIPInfoRecord now ip d ports) := by
    show (st.ipInfos ++ [fallbackIPInfoRecord now ip d ports]).find?
        (fun x => x.IPAddress == ip) = _
    rw [hfind2]
    simp [List.find?, fallbackIPInfoRecord]
  refine ⟨?_, ?_, ?_, ?_⟩
  · rw [heq]
    show ((st.ipInfos ++ [fallbackIPInfoRecord now ip d ports]).filter
      (fun x => x.IPAddress == ip)).length = 1
    rw [List.filter_append, hfilter_nil]
    simp [List.filter, fallbackIPInfoRecord]
  · rw [heq]
  · rw [heq]
    have := ipInfoIntelPhase_cached
      { st with ipInfos := st.ipInfos ++ [fallbackIPInfoRecord now ip d ports] }
      env now2 ip (fallbackIPInfoRecord now ip d ports) hfindrec hnontriv
    rw [this, hfindrec]
  · intro st' now' d' ports' hex
    simp [storeFallbackIPData, hex]

/-- Witness for C2 at an empty store and IP `1.2.3.4`. -/
theorem C2_resolver_at_most_once_witness :
    ((ipInfoIntelPhase ⟨[], []⟩ c2Env ⟨2024, 1, 1, 0, 0, 0⟩ "1.2.3.4").1.ipInfos.filter
        (fun x => x.IPAddress == "1.2.3.4")).length = 1 ∧
    (ipInfoIntelPhase ⟨[], []⟩ c2Env ⟨2024, 1, 1, 0, 0, 0⟩ "1.2.3.4").2.1.geoCalls = 1 ∧
    ipInfoIntelPhase (ipInfoIntelPhase ⟨[], []⟩ c2Env ⟨2024, 1, 1, 0, 0, 0⟩ "1.2.3.4").1
        c2Env ⟨2024, 1, 2, 0, 0, 0⟩ "1.2.3.4" =
      ((ipInfoIntelPhase ⟨[], []⟩ c2Env ⟨2024, 1, 1, 0, 0, 0⟩ "1.2.3.4").1, ⟨0, 0⟩,
        (ipInfoIntelPhase ⟨[], []⟩ c2Env ⟨2024, 1, 1, 0, 0, 0⟩ "1.2.3.4").1.ipInfos.find?
          (fun x => x.IPAddress == "1.2.3.4")) ∧
    storeFallbackIPData c2StoreWith ⟨2024, 1, 3, 0, 0, 0⟩ "1.2.3.4" c2Geo [80] = c2StoreWith :=
  have h := C2_resolver_at_most_once ⟨[], []⟩ c2Env ⟨2024, 1, 1, 0, 0, 0⟩
    ⟨2024, 1, 2, 0, 0, 0⟩ "1.2.3.4" c2Geo (by decide) (by decide) rfl
    (Or.inl (by decide))
  ⟨h.1, h.2.1, h.2.2.1, h.2.2.2 c2StoreWith ⟨2024, 1, 3, 0, 0, 0⟩ c2Geo [80] (by decide)⟩

/-- C7: an IP string that fails `net.ParseIP` validation makes the
intelligence phase a complete no-op — no provider calls, no store change,
the handler simply carries on with whatever record variable it already had —
and `"not-an-ip"` is such a string. -/
theorem C7_invalid_ip_skip (st : IPStore) (env : fallbackEnv) (now : GoTime)
    (ip : String) (h : isValidIPAddress ip = false) :
    ipInfoIntelPhase st env now ip =
      (st, ⟨0, 0⟩, st.ipInfos.find? (fun x => x.IPAddress == ip)) ∧
    isValidIPAddress "not-an-ip" = false := by
  refine ⟨?_, by decide⟩
  simp [ipInfoIntelPhase, h]

/-- Witness for C7 at the literal `"not-an-ip"` and an empty store. -/
theorem C7_invalid_ip_skip_witness :
    ipInfoIntelPhase ⟨[], []⟩ ⟨none, none⟩ ⟨2024, 1, 1, 0, 0, 0⟩ "not-an-ip" =
      (⟨[], []⟩, ⟨0, 0⟩, none) ∧
    isValidIPAddress "not-an-ip" = false :=
  C7_invalid_ip_skip ⟨[], []⟩ ⟨none, none⟩ ⟨2024, 1, 1, 0, 0, 0⟩ "not-an-ip" (by decide)

/-- C6 (counterexample): when a top-level count query fails, the handler
logs and bare-returns — the caller receives the implicit empty 200-default
reply, not a 500-equivalent error response. -/
theorem C6_counterexample :
    StatisticsHandler c6FailDB [] [] = handlerOutcome.emptyReturn ∧
    (StatisticsHandler c6FailDB [] []).isServerErr = false := by
  exact ⟨by decide, by decide⟩

/-- C6 (amended): failure of any store read up to and including the two
aggregation queries aborts the request — the handler returns early without
writing a statistics payload (an empty default reply, not an explicit 500) —
whereas when those succeed the request always produces a statistics body, and
a failed target/session lookup only leaves `target_info` unset. -/
theorem C6_error_isolation (db : statsDB) (iterD : List apexDomain)
    (iterI : List ipEntry) :
    (statsDBFatalOk db = false →
      StatisticsHandler db iterD iterI = handlerOutcome.emptyReturn) ∧
    (statsDBFatalOk db = true →
      ∃ resp, StatisticsHandler db iterD iterI = handlerOutcome.okJSON resp ∧
        resp.TargetInfo = (match getTargetInformation db.sessionQuery with
          | .error _ => none
          | .ok t => some t)) := by
  constructor
  · intro hfail
    cases h1 : db.dbsizeQuery with
    | error e => simp [StatisticsHandler, h1]
    | ok v1 =>
      cases h2 : db.resultsCountQuery with
      | error e => simp [StatisticsHandler, h1, h2]
      | ok v2 =>
        cases h3 : db.headersCountQuery with
        | error e => simp [StatisticsHandler, h1, h2, h3]
        | ok v3 =>
          cases h4 : db.networkLogsCountQuery with
          | error e => simp [StatisticsHandler, h1, h2, h3, h4]
          | ok v4 =>
            cases h5 : db.consoleLogsCountQuery with
            | error e => simp [StatisticsHandler, h1, h2, h3, h4, h5]
            | ok v5 =>
              cases h6 : db.responseCodesQuery with
              | error e => simp [StatisticsHandler, h1, h2, h3, h4, h5, h6]
              | ok v6 =>
                cases h7 : db.domainResultsQuery with
                | error e => simp [StatisticsHandler, h1, h2, h3, h4, h5, h6, h7]
                | ok v7 =>
                  cases h8 : db.ipResultsQuery with
                  | error e => simp [StatisticsHandler, h1, h2, h3, h4, h5, h6, h7, h8]
                  | ok v8 =>
                    exfalso
                    simp [statsDBFatalOk, exceptOk, h1, h2, h3, h4, h5, h6, h7, h8] at hfail
  · intro hok
    cases h1 : db.dbsizeQuery with
    | error e => simp [statsDBFatalOk, exceptOk, h1] at hok
    | ok v1 =>
      cases h2 : db.resultsCountQuery with
      | error e => simp [statsDBFatalOk, exceptOk, h1, h2] at hok
      | ok v2 =>
        cases h3 : db.headersCountQuery with
        | error e => simp [statsDBFatalOk, exceptOk, h1, h2, h3] at hok
        | ok v3 =>
          cases h4 : db.networkLogsCountQuery with
          | error e => simp [statsDBFatalOk, exceptOk, h1, h2, h3, h4] at hok
          | ok v4 =>
            cases h5 : db.consoleLogsCountQuery with
            | error e => simp [statsDBFatalOk, exceptOk, h1, h2, h3, h4, h5] at hok
            | ok v5 =>
              cases h6 : db.responseCodesQuery with
              | error e => simp [statsDBFatalOk, exceptOk, h1, h2, h3, h4, h5, h6] at hok
              | ok v6 =>
                cases h7 : db.domainResultsQuery with
                | error e =>
                  simp [statsDBFatalOk, exceptOk, h1, h2, h3, h4, h5, h6, h7] at hok
                | ok v7 =>
                  cases h8 : db.ipResultsQuery with
                  | error e =>
                    simp [statsDBFatalOk, exceptOk, h1, h2, h3, h4, h5, h6, h7, h8] at hok
                  | ok v8 =>
                    simp only [StatisticsHandler, h1, h2, h3, h4, h5, h6, h7, h8]
                    exact ⟨_, rfl, rfl⟩

/-- Witness for C6 (amended): the failing store aborts the request with the
empty default reply; the store that fails only the session lookup still
answers, with `target_info` omitted. -/
theorem C6_error_isolation_witness :
    StatisticsHandler c6FailDB [] [] = handlerOutcome.emptyReturn ∧
    (∃ resp, StatisticsHandler c6NoSessionDB [] [] = handlerOutcome.okJSON resp ∧
      resp.TargetInfo = (match getTargetInformation c6NoSessionDB.sessionQuery with
        | .error _ => none
        | .ok t => some t)) :=
  ⟨(C6_error_isolation c6FailDB [] []).1 (by decide),
   (C6_error_isolation c6NoSessionDB [] []).2 (by decide)⟩

/-- The check-then-insert shape shared by all three insertion paths keeps
the key list duplicate-free. -/
theorem ipPortKeys_nodup_insert (db : List IPPort) (rec : IPPort)
    (h : (ipPortKeys db).Nodup) :
    (ipPortKeys (if ipPortPairExists db rec.IPAddress rec.Port then db
                 else db ++ [rec])).Nodup := by
  by_cases hex : ipPortPairExists db rec.IPAddress rec.Port = true
  · rw [if_pos hex]
    exact h
  · rw [if_neg hex]
    have hkey : (rec.IPAddress, rec.Port) ∉ ipPortKeys db := by
      intro hmem
      obtain ⟨e, he, heq⟩ := List.mem_map.mp hmem
      apply hex
      refine List.any_eq_true.mpr ⟨e, he, ?_⟩
      have h1 : e.IPAddress = rec.IPAddress := congrArg Prod.fst heq
      have h2 : e.Port = rec.Port := congrArg Prod.snd heq
      simp [h1, h2]
    have hsplit : ipPortKeys (db ++ [rec]) =
        ipPortKeys db ++ [(rec.IPAddress, rec.Port)] := by
      simp [ipPortKeys]
    rw [hsplit, List.nodup_append]
    refine ⟨h, List.nodup_singleton _, ?_⟩
    intro k hk hkmem
    have hke : k = (rec.IPAddress, rec.Port) := by simpa using hkmem
    exact hkey (hke ▸ hk)

theorem parseAndSaveResults_nodup (sessionID : Option Nat) (now : GoTime) :
    ∀ (results : List NaabuResult) (db : List IPPort), (ipPortKeys db).Nodup →
      (ipPortKeys (parseAndSaveResults sessionID now db results)).Nodup := by
  intro results
  induction results with
  | nil => intro db h; exact h
  | cons rsl t ih =>
    intro db h
    show (ipPortKeys (parseAndSaveResults sessionID now
      (naabuSaveStep sessionID now db rsl) t)).Nodup
    exact ih _ (ipPortKeys_nodup_insert db
      { ID := 0, IPAddress := rsl.IP, Port := rsl.Port, Protocol := rsl.Protocol,
        Service := "", State := "open", Banner := "", ScanSessionID := sessionID,
        DiscoveredAt := now, IsCDN := rsl.CDN, CDNName := rsl.CDNName,
        CDNDetected := true, OriginalHost := rsl.Host } h)

theorem createFallbackIPPortEntries_nodup (sessionID : Option Nat) (now : GoTime)
    (ip0 : String) :
    ∀ (ports : List Int) (db : List IPPort), (ipPortKeys db).Nodup →
      (ipPortKeys (createFallbackIPPortEntries sessionID now db ip0 ports)).Nodup := by
  intro ports
  induction ports with
  | nil => intro db h; exact h
  | cons p t ih =>
    intro db h
    show (ipPortKeys (createFallbackIPPortEntries sessionID now
      (fallbackPortStep sessionID now ip0 db p) ip0 t)).Nodup
    exact ih _ (ipPortKeys_nodup_insert db
      { ID := 0, IPAddress := ip0, Port := p, Protocol := "tcp", Service := "",
        State := "open", Banner := "", ScanSessionID := sessionID,
        DiscoveredAt := now, IsCDN := false, CDNName := "", CDNDetected := false,
        OriginalHost := "" } h)

theorem createIPPortEntries_nodup (sessionID : Option Nat) (now : GoTime) :
    ∀ (host0 : shodanHost) (db : List IPPort), (ipPortKeys db).Nodup →
      (ipPortKeys (createIPPortEntries sessionID now db host0)).Nodup := by
  intro host0
  have hgen : ∀ (ports : List Int) (db : List IPPort), (ipPortKeys db).Nodup →
      (ipPortKeys (ports.foldl (shodanPortStep sessionID now host0.IP) db)).Nodup := by
    intro ports
    induction ports with
    | nil => intro db h; exact h
    | cons p t ih =>
      intro db h
      exact ih _ (ipPortKeys_nodup_insert db
        { ID := 0, IPAddress := host0.IP, Port := p, Protocol := "tcp",
          Service := "", State := "open", Banner := "", ScanSessionID := sessionID,
          DiscoveredAt := now, IsCDN := false, CDNName := "", CDNDetected := false,
          OriginalHost := "" } h)
  intro db h
  exact hgen host0.Ports db h

/-- C9: when an (IP address, port) pair already has a record, a second
discovery of that pair is a no-op in each of the three insertion paths
(naabu command line, shodan fallback ports, Shodan-sourced ports), and every
batch run of those paths keeps the (IP address, port) key list
duplicate-free. -/
theorem C9_port_dedup (db : List IPPort) (sessionID : Option Nat) (now : GoTime)
    (ip : String) (port : Int) (res : NaabuResult) (host : shodanHost)
    (hres : res.IP = ip ∧ res.Port = port)
    (hhost : host.IP = ip ∧ host.Ports = [port])
    (hpair : ipPortPairExists db ip port = true) :
    naabuSaveStep sessionID now db res = db ∧
    createFallbackIPPortEntries sessionID now db ip [port] = db ∧
    createIPPortEntries sessionID now db host = db ∧
    (∀ (results : List NaabuResult) (db0 : List IPPort), (ipPortKeys db0).Nodup →
      (ipPortKeys (parseAndSaveResults sessionID now db0 results)).Nodup) ∧
    (∀ (ip0 : String) (ports : List Int) (db0 : List IPPort), (ipPortKeys db0).Nodup →
      (ipPortKeys (createFallbackIPPortEntries sessionID now db0 ip0 ports)).Nodup) ∧
    (∀ (host0 : shodanHost) (db0 : List IPPort), (ipPortKeys db0).Nodup →
      (ipPortKeys (createIPPortEntries sessionID now db0 host0)).Nodup) := by
  obtain ⟨hres1, hres2⟩ := hres
  obtain ⟨hhost1, hhost2⟩ := hhost
  refine ⟨?_, ?_, ?_, ?_, ?_, ?_⟩
  · simp [naabuSaveStep, hres1, hres2, hpair]
  · simp [createFallbackIPPortEntries, fallbackPortStep, hpair]
  · simp [createIPPortEntries, shodanPortStep, hhost1, hhost2, hpair]
  · exact fun results db0 h => parseAndSaveResults_nodup sessionID now results db0 h
  · exact fun ip0 ports db0 h => createFallbackIPPortEntries_nodup sessionID now ip0 ports db0 h
  · exact fun host0 db0 h => createIPPortEntries_nodup sessionID now host0 db0 h

/-- Witness for C9: rediscovering `1.2.3.4:80` through each path leaves the
single-record table unchanged. -/
theorem C9_port_dedup_witness :
    naabuSaveStep none ⟨2024, 1, 2, 0, 0, 0⟩ [c9Existing]
        { Host := "a.com", IP := "1.2.3.4", Port := 80, CDN := false,
          CDNName := "", Protocol := "tcp" } = [c9Existing] ∧
    createFallbackIPPortEntries none ⟨2024, 1, 2, 0, 0, 0⟩ [c9Existing]
        "1.2.3.4" [80] = [c9Existing] ∧
    createIPPortEntries none ⟨2024, 1, 2, 0, 0, 0⟩ [c9Existing]
        { IP := "1.2.3.4", Ports := [80] } = [c9Existing] :=
  have h := C9_port_dedup [c9Existing] none ⟨2024, 1, 2, 0, 0, 0⟩ "1.2.3.4" 80
    { Host := "a.com", IP := "1.2.3.4", Port := 80, CDN := false,
      CDNName := "", Protocol := "tcp" }
    { IP := "1.2.3.4", Ports := [80] }
    ⟨rfl, rfl⟩ ⟨rfl, rfl⟩ (by decide)
  ⟨h.1, h.2.1, h.2.2.1⟩

end Gowitness
